import Mathlib

/-!
Verification of the argo Python client (src/python/cryptol_api.py and
src/python/argo/connection.py) against its natural-language specification.

The development shallowly embeds the Python code:
* `PyVal` is the unityped universe of Python values the client manipulates
  (native arguments, wire values, decoded JSON replies).
* Fallible Python code is embedded as functions into `Except PyErr _`;
  a raised exception is `.error e`.
* Blocking behaviour of `wait_for_reply_to` (an infinite poll loop when the
  awaited reply never arrives) is embedded as the distinguished outcome
  `Halt.blocked`.
-/

namespace Argo

/-- Universe of Python values used by the client.  `dict` is an
insertion-ordered association list, exactly like a Python `dict`
(keys are unique in every value the program builds).  `bytes` is a byte
string (each entry < 256 in every value the program builds).  `code`
models a `CryptolLiteral(c)` instance, whose constructor stores `c` in the
attribute `_code` (there is no `code` attribute).  `gen` models an
unforced Python generator object over `from_cryptol_arg` applied to the
stored raw elements: comparing a generator with a tuple or list by `==`
is `False`, which the separate constructor reflects. -/
inductive PyVal : Type where
  | none : PyVal
  | bool (b : Bool) : PyVal
  | int (n : Int) : PyVal
  | str (s : String) : PyVal
  | tuple (xs : List PyVal) : PyVal
  | list (xs : List PyVal) : PyVal
  | dict (entries : List (PyVal × PyVal)) : PyVal
  | bytes (bs : List Nat) : PyVal
  | code (c : String) : PyVal
  | gen (raw : List PyVal) : PyVal

mutual

/-- Python `==` on the values the client compares.  Values of distinct
shapes compare unequal; two generator objects are compared by identity in
Python, and the embedded code never compares two generators, so that case
is `false` here.  (Python's `True == 1` numeric coincidence is likewise
never exercised: the code only compares strings, ints and `()`.) -/
def pyEq : PyVal → PyVal → Bool
  | .none, .none => true
  | .bool a, .bool b => a == b
  | .int a, .int b => a == b
  | .str a, .str b => a == b
  | .tuple a, .tuple b => pyEqList a b
  | .list a, .list b => pyEqList a b
  | .dict a, .dict b => pyEqEntries a b
  | .bytes a, .bytes b => a == b
  | .code a, .code b => a == b
  | _, _ => false

def pyEqList : List PyVal → List PyVal → Bool
  | [], [] => true
  | a :: as, b :: bs => pyEq a b && pyEqList as bs
  | _, _ => false

def pyEqEntries : List (PyVal × PyVal) → List (PyVal × PyVal) → Bool
  | [], [] => true
  | (ka, va) :: as, (kb, vb) :: bs => pyEq ka kb && pyEq va vb && pyEqEntries as bs
  | _, _ => false

end

/-- Python exceptions raised by the embedded code. -/
inductive PyErr : Type where
  | typeError (msg : String) : PyErr
  | valueError (msg : String) : PyErr
  | keyError (k : String) : PyErr
  | attributeError (a : String) : PyErr
  | cryptolException (msg : String) : PyErr
  | indexError : PyErr
  deriving DecidableEq

/-- Association-list lookup, first match (Python dicts have unique keys). -/
def assocFind : List (PyVal × PyVal) → PyVal → Option PyVal
  | [], _ => Option.none
  | (k, v) :: rest, key => if pyEq k key then some v else assocFind rest key

/-- Python dict update `d[k] = v`: an existing key keeps its position,
a new key is appended at the end. -/
def assocSet : List (PyVal × PyVal) → PyVal → PyVal → List (PyVal × PyVal)
  | [], k, v => [(k, v)]
  | (k', v') :: rest, k, v =>
    if pyEq k' k then (k', v) :: rest else (k', v') :: assocSet rest k v

/-! ## UTF-8 (Python `str.encode()` / `bytes.decode()`)

Byte strings are `List Nat` with entries < 256. -/

/-- UTF-8 encoding of one Unicode scalar value (Python `chr(c).encode()`). -/
def utf8EncodeChar (c : Nat) : List Nat :=
  if c < 128 then [c]
  else if c < 2048 then [192 + c / 64, 128 + c % 64]
  else if c < 65536 then [224 + c / 4096, 128 + c / 64 % 64, 128 + c % 64]
  else [240 + c / 262144, 128 + c / 4096 % 64, 128 + c / 64 % 64, 128 + c % 64]

/-- Python `string.encode()`: UTF-8 bytes of a string. -/
def strToUtf8 (s : String) : List Nat :=
  (s.data.map (fun ch => utf8EncodeChar ch.toNat)).flatten

/-- Is `b` a UTF-8 continuation byte? -/
def isCont (b : Nat) : Bool := 128 ≤ b && b < 192

/-! UTF-8 decoding (Python `bytes.decode()`); `Option.none` models a
`UnicodeDecodeError` (a subclass of `ValueError`).  Overlong encodings and
surrogate code points are rejected, as CPython does.  The decoder is split
into one helper per sequence length. -/

mutual

def utf8Decode : List Nat → Option (List Char)
  | [] => some []
  | b :: bs =>
    if b < 128 then (utf8Decode bs).map (fun cs => Char.ofNat b :: cs)
    else if b < 192 then Option.none
    else if b < 224 then utf8Dec2 b bs
    else if b < 240 then utf8Dec3 b bs
    else if b < 248 then utf8Dec4 b bs
    else Option.none

/-- Two-byte UTF-8 sequence with lead byte `b`. -/
def utf8Dec2 (b : Nat) : List Nat → Option (List Char)
  | b1 :: rest =>
    if isCont b1 then
      if (b - 192) * 64 + (b1 - 128) < 128 then Option.none
      else (utf8Decode rest).map
        (fun cs => Char.ofNat ((b - 192) * 64 + (b1 - 128)) :: cs)
    else Option.none
  | [] => Option.none

/-- Three-byte UTF-8 sequence with lead byte `b`. -/
def utf8Dec3 (b : Nat) : List Nat → Option (List Char)
  | b1 :: b2 :: rest =>
    if isCont b1 && isCont b2 then
      if (b - 224) * 4096 + (b1 - 128) * 64 + (b2 - 128) < 2048 then Option.none
      else if 55296 ≤ (b - 224) * 4096 + (b1 - 128) * 64 + (b2 - 128) &&
              (b - 224) * 4096 + (b1 - 128) * 64 + (b2 - 128) < 57344 then
        Option.none
      else (utf8Decode rest).map
        (fun cs => Char.ofNat ((b - 224) * 4096 + (b1 - 128) * 64 + (b2 - 128)) :: cs)
    else Option.none
  | _ => Option.none

/-- Four-byte UTF-8 sequence with lead byte `b`. -/
def utf8Dec4 (b : Nat) : List Nat → Option (List Char)
  | b1 :: b2 :: b3 :: rest =>
    if isCont b1 && isCont b2 && isCont b3 then
      if (b - 240) * 262144 + (b1 - 128) * 4096 + (b2 - 128) * 64 + (b3 - 128)
          < 65536 then Option.none
      else if 1114111 <
          (b - 240) * 262144 + (b1 - 128) * 4096 + (b2 - 128) * 64 + (b3 - 128) then
        Option.none
      else (utf8Decode rest).map
        (fun cs => Char.ofNat
          ((b - 240) * 262144 + (b1 - 128) * 4096 + (b2 - 128) * 64 + (b3 - 128)) :: cs)
    else Option.none
  | _ => Option.none

end

/-- `bytes.decode()` producing a `String`. -/
def utf8DecodeStr (bs : List Nat) : Option String :=
  (utf8Decode bs).map (fun cs => ⟨cs⟩)

/-! ## The framing codec (`encode`/`decode` in cryptol_api.py, identical to
the `netstring` module used by argo/connection.py) -/

/-- ASCII decimal digits of `n`, most significant first (Python
`str(n)`); the fuel argument makes the recursion structural, and
`n + 1` fuel always suffices since `n / 10 < n` for positive `n`. -/
def natToAsciiAux : Nat → Nat → List Nat
  | 0, _ => []
  | fuel + 1, n =>
    if n < 10 then [n + 48]
    else natToAsciiAux fuel (n / 10) ++ [n % 10 + 48]

def natToAscii (n : Nat) : List Nat := natToAsciiAux (n + 1) n

/-- `chr(b).isdigit()` for a byte `b`: the ASCII digits, plus the three
Latin-1 superscript digits ² ³ ¹ (0xB2, 0xB3, 0xB9) that Python's
`str.isdigit` also accepts. -/
def isPyDigit (b : Nat) : Bool :=
  (48 ≤ b && b ≤ 57) || b == 178 || b == 179 || b == 185

/-- The scan `while chr(netstring[i]).isdigit()`: longest `isPyDigit`
prefix and the remainder. -/
def takeDigits : List Nat → List Nat × List Nat
  | [] => ([], [])
  | b :: bs =>
    if isPyDigit b then (b :: (takeDigits bs).1, (takeDigits bs).2)
    else ([], b :: bs)

/-- `int(length_bytes.decode())`: `Option.none` models the `ValueError`
raised for an empty digit string, or the `UnicodeDecodeError` (also a
`ValueError`) raised when a superscript-digit byte was scanned. -/
def parseAsciiNat : List Nat → Option Nat
  | ds =>
    if ds = [] then Option.none
    else if ds.all (fun b => 48 ≤ b && b ≤ 57) then
      some (ds.foldl (fun a b => a * 10 + (b - 48)) 0)
    else Option.none

/-- `encode` (cryptol_api.py lines 18-20): netstring framing
`str(len(bytes)) + ':' + bytes + ','`. -/
def encode (s : String) : List Nat :=
  let bs := strToUtf8 s
  natToAscii bs.length ++ 58 :: (bs ++ [44])

/-- `decode` (cryptol_api.py lines 22-39).  Scans the digit prefix, checks
`':'`, parses the length, copies `length` bytes, checks `','`, and returns
the decoded message together with the remaining bytes.  Indexing past the
end of the buffer at any of those steps is an `IndexError`. -/
def decode (netstring : List Nat) : Except PyErr (String × List Nat) :=
  let (digits, rest) := takeDigits netstring
  match rest with
  | [] => .error .indexError
  | c :: rest1 =>
    if c ≠ 58 then .error (.valueError "Malformed netstring, missing :")
    else
      match parseAsciiNat digits with
      | Option.none => .error (.valueError "invalid literal for int")
      | some length =>
        if rest1.length < length then .error .indexError
        else
          let out := rest1.take length
          match rest1.drop length with
          | [] => .error .indexError
          | c2 :: rest2 =>
            if c2 ≠ 44 then .error (.valueError "Malformed netstring, missing ,")
            else
              match utf8DecodeStr out with
              | some s => .ok (s, rest2)
              | Option.none => .error (.valueError "UnicodeDecodeError")

/-! ### Framing codec lemmas -/

theorem charValidRange (c : Char) :
    c.toNat < 55296 ∨ (57343 < c.toNat ∧ c.toNat < 1114112) := by
  have h := c.valid
  simp only [UInt32.isValidChar, Nat.isValidChar] at h
  simp only [Char.toNat]
  omega

theorem utf8Decode_encodeChar (c : Char) (rest : List Nat) :
    utf8Decode (utf8EncodeChar c.toNat ++ rest) =
      (utf8Decode rest).map (fun cs => c :: cs) := by
  have hv := charValidRange c
  have hofn := Char.ofNat_toNat c
  by_cases h1 : c.toNat < 128
  · rw [utf8EncodeChar, if_pos h1]
    simp only [List.cons_append, List.nil_append]
    rw [utf8Decode, if_pos h1, hofn]
  · by_cases h2 : c.toNat < 2048
    · rw [utf8EncodeChar, if_neg h1, if_pos h2]
      simp only [List.cons_append, List.nil_append]
      rw [utf8Decode, if_neg (by omega), if_neg (by omega), if_pos (by omega),
        utf8Dec2,
        if_pos (show isCont (128 + c.toNat % 64) = true by
          simp only [isCont, Bool.and_eq_true, decide_eq_true_eq]; omega)]
      have e : (192 + c.toNat / 64 - 192) * 64 + (128 + c.toNat % 64 - 128)
          = c.toNat := by omega
      simp only [e]
      rw [if_neg (by omega), hofn]
    · by_cases h3 : c.toNat < 65536
      · rw [utf8EncodeChar, if_neg h1, if_neg h2, if_pos h3]
        simp only [List.cons_append, List.nil_append]
        rw [utf8Decode, if_neg (by omega), if_neg (by omega),
          if_neg (by omega), if_pos (by omega), utf8Dec3,
          if_pos (show (isCont (128 + c.toNat / 64 % 64)
              && isCont (128 + c.toNat % 64)) = true by
            simp only [isCont, Bool.and_eq_true, decide_eq_true_eq]; omega)]
        have e : (224 + c.toNat / 4096 - 224) * 4096
            + (128 + c.toNat / 64 % 64 - 128) * 64
            + (128 + c.toNat % 64 - 128) = c.toNat := by omega
        simp only [e]
        rw [if_neg (by omega),
          if_neg (show ¬ (55296 ≤ c.toNat && c.toNat < 57344) = true by
            simp only [Bool.and_eq_true, decide_eq_true_eq]; omega),
          hofn]
      · rw [utf8EncodeChar, if_neg h1, if_neg h2, if_neg h3]
        simp only [List.cons_append, List.nil_append]
        rw [utf8Decode, if_neg (by omega), if_neg (by omega),
          if_neg (by omega), if_neg (by omega), if_pos (by omega), utf8Dec4,
          if_pos (show (isCont (128 + c.toNat / 4096 % 64)
              && isCont (128 + c.toNat / 64 % 64)
              && isCont (128 + c.toNat % 64)) = true by
            simp only [isCont, Bool.and_eq_true, decide_eq_true_eq]; omega)]
        have e : (240 + c.toNat / 262144 - 240) * 262144
            + (128 + c.toNat / 4096 % 64 - 128) * 4096
            + (128 + c.toNat / 64 % 64 - 128) * 64
            + (128 + c.toNat % 64 - 128) = c.toNat := by omega
        simp only [e]
        rw [if_neg (by omega), if_neg (by omega), hofn]

theorem utf8Decode_chars (cs : List Char) (rest : List Nat) :
    utf8Decode ((cs.map (fun ch => utf8EncodeChar ch.toNat)).flatten ++ rest) =
      (utf8Decode rest).map (fun tl => cs ++ tl) := by
  induction cs with
  | nil =>
    simp only [List.map_nil, List.flatten_nil, List.nil_append]
    cases utf8Decode rest <;> rfl
  | cons c cs ih =>
    simp only [List.map_cons, List.flatten_cons, List.append_assoc,
      utf8Decode_encodeChar, ih]
    cases utf8Decode rest <;> rfl

theorem utf8DecodeStr_strToUtf8 (s : String) :
    utf8DecodeStr (strToUtf8 s) = some s := by
  have h := utf8Decode_chars s.data []
  rw [List.append_nil] at h
  have h0 : utf8Decode [] = some [] := rfl
  rw [h0] at h
  rw [utf8DecodeStr, strToUtf8, h]
  show some (String.mk (s.data ++ [])) = some s
  rw [List.append_nil]

theorem natToAsciiAux_all_digits (fuel : Nat) : ∀ n, n < fuel →
    ∀ b ∈ natToAsciiAux fuel n, 48 ≤ b ∧ b ≤ 57 := by
  induction fuel with
  | zero => intro n h; omega
  | succ fuel ih =>
    intro n _ b hb
    rw [natToAsciiAux] at hb
    split at hb
    · simp only [List.mem_singleton] at hb
      omega
    · rw [List.mem_append] at hb
      rcases hb with hb | hb
      · exact ih (n / 10) (by omega) b hb
      · simp only [List.mem_singleton] at hb
        omega

theorem natToAscii_all_digits (n : Nat) :
    ∀ b ∈ natToAscii n, 48 ≤ b ∧ b ≤ 57 :=
  natToAsciiAux_all_digits (n + 1) n (by omega)

theorem natToAscii_ne_nil (n : Nat) : natToAscii n ≠ [] := by
  rw [natToAscii, natToAsciiAux]
  split <;> simp

theorem natToAsciiAux_foldl (fuel : Nat) : ∀ n, n < fuel → ∀ a : Nat,
    (natToAsciiAux fuel n).foldl (fun a b => a * 10 + (b - 48)) a
      = a * 10 ^ (natToAsciiAux fuel n).length + n := by
  induction fuel with
  | zero => intro n h; omega
  | succ fuel ih =>
    intro n hn a
    rw [natToAsciiAux]
    split
    · simp only [List.foldl_cons, List.foldl_nil, List.length_singleton]
      omega
    · have hrec : n / 10 < fuel := by omega
      rw [List.foldl_append, ih (n / 10) hrec]
      simp only [List.foldl_cons, List.foldl_nil, List.length_append,
        List.length_singleton]
      rw [pow_succ]
      have h10 : 0 < (10:Nat) ^ (natToAsciiAux fuel (n / 10)).length := by
        positivity
      have := Nat.div_add_mod n 10
      ring_nf
      omega

theorem parseAsciiNat_natToAscii (n : Nat) :
    parseAsciiNat (natToAscii n) = some n := by
  rw [parseAsciiNat]
  rw [if_neg (natToAscii_ne_nil n), if_pos]
  · rw [natToAscii, natToAsciiAux_foldl (n + 1) n (by omega) 0]
    simp
  · rw [List.all_eq_true]
    intro b hb
    have := natToAscii_all_digits n b hb
    simp only [Bool.and_eq_true, decide_eq_true_eq]
    omega

theorem takeDigits_append (ds : List Nat) (c : Nat) (r : List Nat)
    (hds : ∀ b ∈ ds, isPyDigit b = true) (hc : isPyDigit c = false) :
    takeDigits (ds ++ c :: r) = (ds, c :: r) := by
  induction ds with
  | nil => simp [takeDigits, hc]
  | cons d ds ih =>
    have hd : isPyDigit d = true := hds d (List.mem_cons_self d ds)
    rw [List.cons_append, takeDigits, if_pos hd,
      ih (fun b hb => hds b (List.mem_cons_of_mem d hb))]

/-- The central framing law: decoding an encoded message followed by any
residue yields the message and exactly that residue. -/
theorem decode_encode_append (m : String) (extra : List Nat) :
    decode (encode m ++ extra) = .ok (m, extra) := by
  have hdig : ∀ b ∈ natToAscii (strToUtf8 m).length, isPyDigit b = true := by
    intro b hb
    have := natToAscii_all_digits (strToUtf8 m).length b hb
    simp only [isPyDigit, Bool.or_eq_true, Bool.and_eq_true, decide_eq_true_eq,
      beq_iff_eq]
    omega
  have hcolon : isPyDigit 58 = false := by decide
  rw [decode, encode]
  simp only [List.append_assoc, List.cons_append, List.nil_append]
  rw [takeDigits_append _ 58 _ hdig hcolon]
  simp only [if_neg (by omega : ¬ (58:Nat) ≠ 58), ne_eq, not_true_eq_false,
    ite_false, parseAsciiNat_natToAscii]
  have hlen : ¬ ((strToUtf8 m ++ 44 :: extra).length < (strToUtf8 m).length) := by
    simp only [List.length_append, List.length_cons]
    omega
  rw [if_neg hlen]
  rw [List.take_left' rfl, List.drop_left' rfl]
  simp only [if_neg (by omega : ¬ (44:Nat) ≠ 44), ne_eq, not_true_eq_false,
    ite_false, utf8DecodeStr_strToUtf8 m]

/-! ## Python `str`/`repr` rendering (used in exception messages) -/

mutual

/-- Python `repr` of a value, as used when a value is rendered inside a
container.  String escaping is not modelled (no message in the verified
paths contains quotes or control characters); `code` and `gen` objects
print with a memory address in Python, rendered here as a fixed tag. -/
def pyRepr : PyVal → String
  | .none => "None"
  | .bool b => if b then "True" else "False"
  | .int n => toString n
  | .str s => "\x27" ++ s ++ "\x27"
  | .tuple xs =>
    "(" ++ String.intercalate ", " (pyReprList xs)
      ++ (if xs.length == 1 then ",)" else ")")
  | .list xs => "[" ++ String.intercalate ", " (pyReprList xs) ++ "]"
  | .dict es => "\x7b" ++ String.intercalate ", " (pyReprEntries es) ++ "\x7d"
  | .bytes bs => "b\x27" ++ String.intercalate "" (bs.map (fun b => toString b)) ++ "\x27"
  | .code _ => "<CryptolLiteral>"
  | .gen _ => "<generator>"

def pyReprList : List PyVal → List String
  | [] => []
  | v :: vs => pyRepr v :: pyReprList vs

def pyReprEntries : List (PyVal × PyVal) → List String
  | [] => []
  | (k, v) :: rest => (pyRepr k ++ ": " ++ pyRepr v) :: pyReprEntries rest

end

/-- Python `str` of a value: a string prints without quotes, everything
else prints as its `repr`. -/
def pyStr : PyVal → String
  | .str s => s
  | v => pyRepr v

/-! ## Subscripting (`v[k]`) -/

/-- Python sequence indexing with negative-index wraparound. -/
def pySeqGet (xs : List PyVal) (i : Int) : Except PyErr PyVal :=
  let j := if i < 0 then i + xs.length else i
  if j < 0 then .error .indexError
  else
    match xs.get? j.toNat with
    | some v => .ok v
    | Option.none => .error .indexError

/-- Python subscripting `v[k]`.  A missing dict key is a `KeyError`
(carrying the key, rendered by `pyStr`); subscripting `None` is the
`TypeError` that C10 depends on. -/
def subscript (v k : PyVal) : Except PyErr PyVal :=
  match v with
  | .dict es =>
    match assocFind es k with
    | some x => .ok x
    | Option.none => .error (.keyError (pyStr k))
  | .tuple xs =>
    match k with
    | .int i => pySeqGet xs i
    | _ => .error (.typeError "tuple indices must be integers")
  | .list xs =>
    match k with
    | .int i => pySeqGet xs i
    | _ => .error (.typeError "list indices must be integers")
  | .str s =>
    match k with
    | .int i =>
      match pySeqGet (s.data.map (fun c => PyVal.str (String.mk [c]))) i with
      | .ok c => .ok c
      | .error e => .error e
    | _ => .error (.typeError "string indices must be integers")
  | .none => .error (.typeError "NoneType object is not subscriptable")
  | _ => .error (.typeError "object is not subscriptable")

/-! ## base64 and hex codecs (Python `base64`/`bytes.fromhex`) -/

/-- Character of one 6-bit group in the standard base64 alphabet. -/
def b64Char (n : Nat) : Char :=
  if n < 26 then Char.ofNat (65 + n)
  else if n < 52 then Char.ofNat (97 + (n - 26))
  else if n < 62 then Char.ofNat (48 + (n - 52))
  else if n = 62 then Char.ofNat 43
  else Char.ofNat 47

/-- `base64.b64encode`, three bytes at a time with `=` padding. -/
def b64encodeChars : List Nat → List Char
  | [] => []
  | [a] => [b64Char (a / 4), b64Char (a % 4 * 16), Char.ofNat 61, Char.ofNat 61]
  | [a, b] =>
    [b64Char (a / 4), b64Char (a % 4 * 16 + b / 16), b64Char (b % 16 * 4),
      Char.ofNat 61]
  | a :: b :: c :: rest =>
    b64Char (a / 4) :: b64Char (a % 4 * 16 + b / 16)
      :: b64Char (b % 16 * 4 + c / 64) :: b64Char (c % 64) :: b64encodeChars rest

def b64encode (bs : List Nat) : String := ⟨b64encodeChars bs⟩

/-- Value of one base64 alphabet character. -/
def b64Val (c : Char) : Option Nat :=
  if 65 ≤ c.toNat ∧ c.toNat ≤ 90 then some (c.toNat - 65)
  else if 97 ≤ c.toNat ∧ c.toNat ≤ 122 then some (c.toNat - 97 + 26)
  else if 48 ≤ c.toNat ∧ c.toNat ≤ 57 then some (c.toNat - 48 + 52)
  else if c.toNat = 43 then some 62
  else if c.toNat = 47 then some 63
  else Option.none

/-- `base64.b64decode` on well-padded input; a `binascii.Error` (a
`ValueError` subclass) on anything else. -/
def b64decodeChars : List Char → Except PyErr (List Nat)
  | [] => .ok []
  | [c1, c2, '=', '='] =>
    match b64Val c1, b64Val c2 with
    | some v1, some v2 => .ok [v1 * 4 + v2 / 16]
    | _, _ => .error (.valueError "Invalid base64-encoded string")
  | [c1, c2, c3, '='] =>
    match b64Val c1, b64Val c2, b64Val c3 with
    | some v1, some v2, some v3 => .ok [v1 * 4 + v2 / 16, v2 % 16 * 16 + v3 / 4]
    | _, _, _ => .error (.valueError "Invalid base64-encoded string")
  | c1 :: c2 :: c3 :: c4 :: rest =>
    match b64Val c1, b64Val c2, b64Val c3, b64Val c4 with
    | some v1, some v2, some v3, some v4 =>
      match b64decodeChars rest with
      | .ok bs => .ok ((v1 * 4 + v2 / 16) :: (v2 % 16 * 16 + v3 / 4)
          :: (v3 % 4 * 64 + v4) :: bs)
      | .error e => .error e
    | _, _, _, _ => .error (.valueError "Invalid base64-encoded string")
  | _ => .error (.valueError "Invalid base64-encoded string")

def b64decode (s : String) : Except PyErr (List Nat) := b64decodeChars s.data

/-- Hex digit value. -/
def hexVal (c : Char) : Option Nat :=
  if 48 ≤ c.toNat ∧ c.toNat ≤ 57 then some (c.toNat - 48)
  else if 97 ≤ c.toNat ∧ c.toNat ≤ 102 then some (c.toNat - 97 + 10)
  else if 65 ≤ c.toNat ∧ c.toNat ≤ 70 then some (c.toNat - 65 + 10)
  else Option.none

/-- `bytes.fromhex` (pairs of hex digits; whitespace skipping between
bytes is not modelled since `extend_hex` output never contains it). -/
def fromHexChars : List Char → Except PyErr (List Nat)
  | [] => .ok []
  | c1 :: c2 :: rest =>
    match hexVal c1, hexVal c2 with
    | some v1, some v2 =>
      match fromHexChars rest with
      | .ok bs => .ok ((v1 * 16 + v2) :: bs)
      | .error e => .error e
    | _, _ => .error (.valueError "non-hexadecimal number found in fromhex")
  | _ => .error (.valueError "non-hexadecimal number found in fromhex")

/-- `extend_hex` (cryptol_api.py lines 41-45): zero-pad odd-length hex
strings on the left. -/
def extend_hex (s : String) : String :=
  if s.length % 2 == 1 then "0" ++ s else s

/-! ## The Value Codec: `to_cryptol_arg` (cryptol_api.py lines 67-94) -/

mutual

/-- `to_cryptol_arg`.  The branches follow the Python `isinstance` chain:
bool, `val == ()` (which selects exactly the empty tuple), tuple, dict,
int, list, `CryptolCode`, bytes/bytearray, else `TypeError`.  The
`CryptolCode` branch returns `val.code`, but `CryptolLiteral` stores its
payload in the attribute `_code`, so that branch raises
`AttributeError("code")`. -/
def to_cryptol_arg : PyVal → Except PyErr PyVal
  | .bool b => .ok (.bool b)
  | .tuple [] => .ok (.dict [(.str "expression", .str "unit")])
  | .tuple (x :: xs) =>
    match encList (x :: xs) with
    | .ok d => .ok (.dict [(.str "expression", .str "tuple"),
        (.str "data", .list d)])
    | .error e => .error e
  | .dict es =>
    match encRecord es with
    | .ok d => .ok (.dict [(.str "expression", .str "record"),
        (.str "data", .dict d)])
    | .error e => .error e
  | .int n => .ok (.int n)
  | .list xs =>
    match encList xs with
    | .ok d => .ok (.dict [(.str "expression", .str "sequence"),
        (.str "data", .list d)])
    | .error e => .error e
  | .code _ => .error (.attributeError "code")
  | .bytes bs => .ok (.dict [(.str "expression", .str "bits"),
      (.str "encoding", .str "base64"),
      (.str "width", .int (8 * bs.length)),
      (.str "data", .str (b64encode bs))])
  | v => .error (.typeError ("Unsupported value: " ++ pyStr v))

/-- Element-wise encoding of tuple/sequence data (the list
comprehensions `[to_cryptol_arg(x) for x in val]`). -/
def encList : List PyVal → Except PyErr (List PyVal)
  | [] => .ok []
  | x :: xs =>
    match to_cryptol_arg x with
    | .ok x' =>
      match encList xs with
      | .ok xs' => .ok (x' :: xs')
      | .error e => .error e
    | .error e => .error e

/-- The record dict comprehension: entries are processed in insertion
order; a string key encodes its value, any other key hits `fail_with`
with `TypeError("Record keys must be strings")`.  (Python evaluates
`val[k]`, which for a dict with unique keys is the entry's own value.) -/
def encRecord : List (PyVal × PyVal) → Except PyErr (List (PyVal × PyVal))
  | [] => .ok []
  | (k, v) :: rest =>
    match k with
    | .str _ =>
      match to_cryptol_arg v with
      | .ok v' =>
        match encRecord rest with
        | .ok rest' => .ok ((k, v') :: rest')
        | .error e => .error e
      | .error e => .error e
    | _ => .error (.typeError "Record keys must be strings")

end

/-! ## The Value Codec: `from_cryptol_arg` (cryptol_api.py lines 96-123)

The record branch reads `val[k]` (the *outer* wire object) for every key
`k` of `val['data']`, and the tuple branch builds a generator expression
without wrapping it in `tuple(...)`; both are modelled exactly.  Because
`val[k]` re-enters the outer object rather than a structural subterm, the
recursion is driven by explicit fuel; `sizeOf` of the argument bounds the
recursion depth, so the fuel default never runs out on values reachable
from the program. -/

/-- Element-wise decoding of sequence data
(`[from_cryptol_arg(v) for v in val['data']]`), with the recursive
decoder passed in. -/
def fromList (f : PyVal → Except PyErr PyVal) :
    List PyVal → Except PyErr (List PyVal)
  | [] => .ok []
  | x :: xs =>
    match f x with
    | .ok x' =>
      match fromList f xs with
      | .ok xs' => .ok (x' :: xs')
      | .error e => .error e
    | .error e => .error e

/-- The record dict comprehension
`{k : from_cryptol_arg(val[k]) for k in val['data']}`: for each key of
the data dict it looks the key up in the *outer* object `outer`. -/
def fromRecord (f : PyVal → Except PyErr PyVal)
    (outer : List (PyVal × PyVal)) :
    List (PyVal × PyVal) → Except PyErr (List (PyVal × PyVal))
  | [] => .ok []
  | (k, _) :: rest =>
    match subscript (.dict outer) k with
    | .ok kv =>
      match f kv with
      | .ok v' =>
        match fromRecord f outer rest with
        | .ok rest' => .ok ((k, v') :: rest')
        | .error e => .error e
      | .error e => .error e
    | .error e => .error e

def from_cryptol_arg_fuel : Nat → PyVal → Except PyErr PyVal
  | 0, _ => .error (.valueError "maximum recursion depth exceeded")
  | fuel + 1, v =>
    match v with
    | .bool b => .ok (.bool b)
    | .int n => .ok (.int n)
    | .dict es =>
      match assocFind es (.str "expression") with
      | Option.none => .error (.typeError ("Unsupported value " ++ pyStr v))
      | some tag =>
        if pyEq tag (.str "unit") then .ok (.tuple [])
        else if pyEq tag (.str "tuple") then
          -- generator expression: `val['data']` is evaluated and `iter()`
          -- taken now, the element decodes stay unforced
          match subscript v (.str "data") with
          | .ok (.list xs) => .ok (.gen xs)
          | .ok (.tuple xs) => .ok (.gen xs)
          | .ok _ => .error (.typeError "object is not iterable")
          | .error e => .error e
        else if pyEq tag (.str "record") then
          match subscript v (.str "data") with
          | .ok (.dict des) =>
            match fromRecord (from_cryptol_arg_fuel fuel) es des with
            | .ok res => .ok (.dict res)
            | .error e => .error e
          | .ok _ => .error (.typeError "object is not iterable")
          | .error e => .error e
        else if pyEq tag (.str "sequence") then
          match subscript v (.str "data") with
          | .ok (.list xs) =>
            match fromList (from_cryptol_arg_fuel fuel) xs with
            | .ok res => .ok (.list res)
            | .error e => .error e
          | .ok (.tuple xs) =>
            match fromList (from_cryptol_arg_fuel fuel) xs with
            | .ok res => .ok (.list res)
            | .error e => .error e
          | .ok _ => .error (.typeError "object is not iterable")
          | .error e => .error e
        else if pyEq tag (.str "bits") then
          match subscript v (.str "encoding") with
          | .error e => .error e
          | .ok enc =>
            if pyEq enc (.str "base64") then
              match subscript v (.str "data") with
              | .ok (.str s) =>
                match b64decode s with
                | .ok bs => .ok (.bytes bs)
                | .error e => .error e
              | .ok _ => .error (.attributeError "encode")
              | .error e => .error e
            else if pyEq enc (.str "hex") then
              match subscript v (.str "data") with
              | .ok (.str s) =>
                match fromHexChars (extend_hex s).data with
                | .ok bs => .ok (.bytes bs)
                | .error e => .error e
              | .ok _ => .error (.typeError "fromhex argument must be str")
              | .error e => .error e
            else .error (.valueError ("Unknown encoding " ++ pyStr enc))
        else
          match tag with
          | .str t => .error (.valueError ("Unknown expression tag " ++ t))
          | _ => .error (.typeError "can only concatenate str")
    | _ => .error (.attributeError "keys")

mutual

/-- Structural size of a value, bounding `from_cryptol_arg`'s recursion
depth. -/
def pySize : PyVal → Nat
  | .tuple xs => 1 + pySizeList xs
  | .list xs => 1 + pySizeList xs
  | .gen xs => 1 + pySizeList xs
  | .dict es => 1 + pySizeEntries es
  | _ => 1

def pySizeList : List PyVal → Nat
  | [] => 0
  | x :: xs => 1 + pySize x + pySizeList xs

def pySizeEntries : List (PyVal × PyVal) → Nat
  | [] => 0
  | (k, v) :: rest => 1 + pySize k + pySize v + pySizeEntries rest

end

/-- `from_cryptol_arg`, with enough fuel for its argument: every
recursive call is on a structurally smaller value (`val[k]` selects a
member of the outer dict), so `pySize` bounds the recursion depth. -/
def from_cryptol_arg (v : PyVal) : Except PyErr PyVal :=
  from_cryptol_arg_fuel (pySize v + 1) v

/-! ## `json.loads`

A recursive-descent parser for the JSON subset the protocol exchanges:
objects, arrays, strings (with the single-character escapes), integers,
`true`/`false`/`null`.  Floats and `\u` escapes are outside the subset the
replies use and parse to a `ValueError` here; every parse failure models
`json.JSONDecodeError`, a `ValueError` subclass.  Recursion is fueled by
the input length. -/

def jsonSkipWs : List Char → List Char
  | [] => []
  | c :: cs =>
    if c = ' ' ∨ c = Char.ofNat 9 ∨ c = Char.ofNat 10 ∨ c = Char.ofNat 13 then
      jsonSkipWs cs
    else c :: cs

def isDigitChar (c : Char) : Bool := 48 ≤ c.toNat && c.toNat ≤ 57

def spanDigits : List Char → List Char × List Char
  | [] => ([], [])
  | c :: cs =>
    if isDigitChar c then (c :: (spanDigits cs).1, (spanDigits cs).2)
    else ([], c :: cs)

def digitsToNat (ds : List Char) : Nat :=
  ds.foldl (fun a c => a * 10 + (c.toNat - 48)) 0

/-- Characters of a JSON string literal after the opening quote. -/
def parseJStringChars : List Char → Except PyErr (List Char × List Char)
  | [] => .error (.valueError "Unterminated string")
  | c :: cs =>
    if c = Char.ofNat 34 then .ok ([], cs)
    else if c = Char.ofNat 92 then
      match cs with
      | [] => .error (.valueError "Unterminated string")
      | e :: cs' =>
        match
          (if e = Char.ofNat 34 then some (Char.ofNat 34)
           else if e = Char.ofNat 92 then some (Char.ofNat 92)
           else if e = Char.ofNat 47 then some (Char.ofNat 47)
           else if e = 'n' then some (Char.ofNat 10)
           else if e = 't' then some (Char.ofNat 9)
           else if e = 'r' then some (Char.ofNat 13)
           else if e = 'b' then some (Char.ofNat 8)
           else if e = 'f' then some (Char.ofNat 12)
           else Option.none) with
        | some ch =>
          match parseJStringChars cs' with
          | .ok (s, rest) => .ok (ch :: s, rest)
          | .error err => .error err
        | Option.none => .error (.valueError "Invalid escape")
    else
      match parseJStringChars cs with
      | .ok (s, rest) => .ok (c :: s, rest)
      | .error err => .error err

/-- A JSON integer starting at `cs` (optionally signed); a following
`.`/`e`/`E` would be a float, outside the modelled subset. -/
def parseJInt (cs : List Char) : Except PyErr (PyVal × List Char) :=
  let (neg, cs1) :=
    match cs with
    | c :: rest => if c = '-' then (true, rest) else (false, cs)
    | [] => (false, cs)
  match spanDigits cs1 with
  | ([], _) => .error (.valueError "Expecting value")
  | (ds, rest) =>
    match rest with
    | c :: _ =>
      if c = '.' ∨ c = 'e' ∨ c = 'E' then
        .error (.valueError "float literals are outside the modelled subset")
      else
        .ok (.int (if neg then -(digitsToNat ds : Int) else (digitsToNat ds : Int)), rest)
    | [] =>
      .ok (.int (if neg then -(digitsToNat ds : Int) else (digitsToNat ds : Int)), rest)

mutual

def parseJVal : Nat → List Char → Except PyErr (PyVal × List Char)
  | 0, _ => .error (.valueError "JSON nesting limit")
  | fuel + 1, cs =>
    match jsonSkipWs cs with
    | [] => .error (.valueError "Expecting value")
    | c :: rest =>
      if c = Char.ofNat 123 then
        match jsonSkipWs rest with
        | c2 :: rest2 =>
          if c2 = Char.ofNat 125 then .ok (.dict [], rest2)
          else
            match parseJMembers fuel (c2 :: rest2) with
            | .ok (es, rest3) => .ok (.dict es, rest3)
            | .error e => .error e
        | [] => .error (.valueError "Unterminated object")
      else if c = '[' then
        match jsonSkipWs rest with
        | c2 :: rest2 =>
          if c2 = ']' then .ok (.list [], rest2)
          else
            match parseJElems fuel (c2 :: rest2) with
            | .ok (xs, rest3) => .ok (.list xs, rest3)
            | .error e => .error e
        | [] => .error (.valueError "Unterminated array")
      else if c = Char.ofNat 34 then
        match parseJStringChars rest with
        | .ok (s, rest2) => .ok (.str (String.mk s), rest2)
        | .error e => .error e
      else if c = 't' then
        match rest with
        | 'r' :: 'u' :: 'e' :: rest2 => .ok (.bool true, rest2)
        | _ => .error (.valueError "Expecting value")
      else if c = 'f' then
        match rest with
        | 'a' :: 'l' :: 's' :: 'e' :: rest2 => .ok (.bool false, rest2)
        | _ => .error (.valueError "Expecting value")
      else if c = 'n' then
        match rest with
        | 'u' :: 'l' :: 'l' :: rest2 => .ok (.none, rest2)
        | _ => .error (.valueError "Expecting value")
      else if c = '-' ∨ isDigitChar c then parseJInt (c :: rest)
      else .error (.valueError "Expecting value")

/-- Object members `"k": v (, "k": v)*` followed by the closing brace. -/
def parseJMembers : Nat → List Char →
    Except PyErr (List (PyVal × PyVal) × List Char)
  | 0, _ => .error (.valueError "JSON nesting limit")
  | fuel + 1, cs =>
    match jsonSkipWs cs with
    | c :: rest =>
      if c = Char.ofNat 34 then
        match parseJStringChars rest with
        | .error e => .error e
        | .ok (k, rest1) =>
          match jsonSkipWs rest1 with
          | ':' :: rest2 =>
            match parseJVal fuel rest2 with
            | .error e => .error e
            | .ok (v, rest3) =>
              match jsonSkipWs rest3 with
              | ',' :: rest4 =>
                match parseJMembers fuel rest4 with
                | .ok (es, rest5) => .ok ((.str (String.mk k), v) :: es, rest5)
                | .error e => .error e
              | c5 :: rest5 =>
                if c5 = Char.ofNat 125 then
                  .ok ([(.str (String.mk k), v)], rest5)
                else .error (.valueError "Expecting delimiter")
              | [] => .error (.valueError "Unterminated object")
          | _ => .error (.valueError "Expecting colon")
      else .error (.valueError "Expecting property name")
    | [] => .error (.valueError "Unterminated object")

/-- Array elements `v (, v)*` followed by `]`. -/
def parseJElems : Nat → List Char → Except PyErr (List PyVal × List Char)
  | 0, _ => .error (.valueError "JSON nesting limit")
  | fuel + 1, cs =>
    match parseJVal fuel cs with
    | .error e => .error e
    | .ok (v, rest) =>
      match jsonSkipWs rest with
      | ',' :: rest2 =>
        match parseJElems fuel rest2 with
        | .ok (xs, rest3) => .ok (v :: xs, rest3)
        | .error e => .error e
      | ']' :: rest2 => .ok ([v], rest2)
      | _ => .error (.valueError "Unterminated array")

end

/-- `json.loads`. -/
def jsonLoads (s : String) : Except PyErr PyVal :=
  match parseJVal (s.length + 1) s.data with
  | .ok (v, rest) =>
    if jsonSkipWs rest = [] then .ok v else .error (.valueError "Extra data")
  | .error e => .error e

/-! ## Transport (CryptolConnection's shared fields, and the identical
ServerConnection in argo/connection.py)

A `ConnState` holds exactly the fields that `CryptolConnection.__init__`
copies *by reference* into every snapshot: the identifier source
(`self.ids`, here `nextId`), the inbound byte buffer (`self.buf`), the
reply mapping (`self.replies`, keyed by the reply's `id` value), and the
socket (whose outbound traffic is recorded structurally in `sent`: one
entry per `send_message`, carrying the request id, method and params of
the framed JSON-RPC message written to the socket). -/

/-- One request written to the socket by `send_message`. -/
structure SentMsg where
  request_id : Nat
  method : String
  params : List (PyVal × PyVal)

structure ConnState where
  nextId : Nat
  buf : List Nat
  replies : List (PyVal × PyVal)
  sent : List SentMsg

/-- Outcome of an operation that can also block forever
(`wait_for_reply_to`'s poll loop when the awaited reply never arrives). -/
inductive Halt : Type where
  | blocked : Halt
  | exn (e : PyErr) : Halt

/-- `buffer_replies`: drain all currently available socket bytes
(`incoming`) into the buffer; `BlockingIOError` ends the drain. -/
def buffer_replies (incoming : List Nat) (st : ConnState) : ConnState :=
  { st with buf := st.buf ++ incoming }

/-- `get_one_reply` (cryptol_api.py lines 269-275, identical to
`_get_one_reply` in argo/connection.py): try to decode one frame from the
buffer; on success the buffer is advanced past the frame, and *any*
`ValueError` or `IndexError` — the only exceptions `decode` raises,
whether the frame is incomplete or malformed — yields `None` with the
buffer left intact. -/
def get_one_reply (st : ConnState) : ConnState × Option String :=
  match decode st.buf with
  | .ok (msg, rest) => ({ st with buf := rest }, some msg)
  | .error _ => (st, Option.none)

/-- The reply-draining loop of `process_replies`: parse each framed
message as JSON and store it in the reply mapping under its `id` value.
Fuel: each successful `get_one_reply` consumes at least three buffer
bytes, so `buf.length + 1` rounds never run out. -/
def pumpReplies : Nat → ConnState → Except PyErr ConnState
  | 0, _ => .error (.valueError "pump fuel exhausted")
  | fuel + 1, st =>
    match get_one_reply st with
    | (st1, Option.none) => .ok st1
    | (st1, some r) =>
      match jsonLoads r with
      | .error e => .error e
      | .ok reply =>
        match subscript reply (.str "id") with
        | .error e => .error e
        | .ok rid =>
          pumpReplies fuel { st1 with replies := assocSet st1.replies rid reply }

/-- `process_replies` (cryptol_api.py lines 277-283, identical to
`_process_replies` in argo/connection.py). -/
def process_replies (incoming : List Nat) (st : ConnState) :
    Except PyErr ConnState :=
  let st0 := buffer_replies incoming st
  pumpReplies (st0.buf.length + 1) st0

/-- `send_message`: allocate the next request id from the shared
`IDSource` (which starts at 0 and pre-increments, so ids are 1, 2, ...)
and write the framed message to the socket. -/
def send_message (st : ConnState) (method : String)
    (params : List (PyVal × PyVal)) : ConnState × Nat :=
  let request_id := st.nextId + 1
  ({ st with
      nextId := request_id
      sent := st.sent ++ [⟨request_id, method, params⟩] }, request_id)

/-- `wait_for_reply_to`: pump, then poll until the id has a reply.  With
no further socket input every additional loop iteration repeats the same
no-op pump, so a missing reply means the Python loop spins forever:
`Halt.blocked`. -/
def wait_for_reply_to (incoming : List Nat) (st : ConnState)
    (request_id : Nat) : Except Halt (ConnState × PyVal) :=
  match process_replies incoming st with
  | .error e => .error (.exn e)
  | .ok st1 =>
    match assocFind st1.replies (.int request_id) with
    | some r => .ok (st1, r)
    | Option.none => .error .blocked

/-! ## Reply resolution (CryptolCommand / CryptolQuery) -/

/-- Python `key in container`. -/
def pyContains (container key : PyVal) : Except PyErr Bool :=
  match container with
  | .dict es => .ok ((assocFind es key).isSome)
  | .list xs => .ok (xs.any (fun x => pyEq x key))
  | .tuple xs => .ok (xs.any (fun x => pyEq x key))
  | .str s =>
    match key with
    | .str k => .ok (((s.splitOn k).length > 1 : Bool) || (k = "" : Bool))
    | _ => .error (.typeError "in <string> requires string as left operand")
  | _ => .error (.typeError "argument is not iterable")

/-- `CryptolCommand._result_and_state` (cryptol_api.py lines 147-155).
An `error` reply raises `CryptolException` with the server message,
extended with `" " + str(data)` when a `data` member is present; a
`result` reply returns the `(answer, state)` pair; any other reply falls
through, returning Python `None`. -/
def result_and_state (res : PyVal) : Except PyErr PyVal := do
  if (← pyContains res (.str "error")) then
    let e ← subscript res (.str "error")
    let m ← subscript e (.str "message")
    if (← pyContains e (.str "data")) then
      let d ← subscript e (.str "data")
      match m with
      | .str msg => .error (.cryptolException (msg ++ " " ++ pyStr d))
      | _ => .error (.typeError "unsupported operand types for +=")
    else
      -- protocol error messages are strings; `pyStr` is the identity there
      .error (.cryptolException (pyStr m))
  else if (← pyContains res (.str "result")) then
    let r ← subscript res (.str "result")
    let a ← subscript r (.str "answer")
    let s ← subscript r (.str "state")
    pure (.tuple [a, s])
  else pure .none

/-- `CryptolCommand.state`: `self._result_and_state()[1]`. -/
def command_state (res : PyVal) : Except PyErr PyVal := do
  subscript (← result_and_state res) (.int 1)

/-- The value `CryptolCommand.result` passes to `process_result`:
`self._result_and_state()[0]`. -/
def command_result_arg (res : PyVal) : Except PyErr PyVal := do
  subscript (← result_and_state res) (.int 0)

/-- `CryptolQuery._result` (cryptol_api.py lines 185-193): like the
command resolution but returning only `res['result']['answer']`, and
`None` on the same fall-through. -/
def query_result (res : PyVal) : Except PyErr PyVal := do
  if (← pyContains res (.str "error")) then
    let e ← subscript res (.str "error")
    let m ← subscript e (.str "message")
    if (← pyContains e (.str "data")) then
      let d ← subscript e (.str "data")
      match m with
      | .str msg => .error (.cryptolException (msg ++ " " ++ pyStr d))
      | _ => .error (.typeError "unsupported operand types for +=")
    else
      .error (.cryptolException (pyStr m))
  else if (← pyContains res (.str "result")) then
    let r ← subscript res (.str "result")
    subscript r (.str "answer")
  else pure .none

/-- `CryptolEvalExpr.process_result` is the identity. -/
def evalExpr_process_result (res : PyVal) : PyVal := res

/-- `CryptolEvalExpr.result()`: `process_result(self._result())`. -/
def evalExpr_result (res : PyVal) : Except PyErr PyVal :=
  (query_result res).map evalExpr_process_result

/-! ## Session layer (CryptolInteraction / CryptolConnection) -/

/-- One `CryptolInteraction`: request id assigned at send time, the kind
(`CryptolCommand` vs `CryptolQuery`), the `init_state` captured from
`connection.protocol_state()` during `__init__`, and the sent method and
params (with the injected `state`). -/
structure Interaction where
  request_id : Nat
  isQuery : Bool
  init_state : PyVal
  method : String
  params : List (PyVal × PyVal)

/-- The per-session view: only `most_recent_result` is owned by the
session object; every other `CryptolConnection` field lives in the shared
`ConnState`. -/
structure Conn where
  most_recent_result : Option Interaction

/-- `CryptolConnection.snapshot` (lines 253-254): the child copies the
reference to `most_recent_result` and shares `sock`/`buf`/`replies`/`ids`
— the shared fields are the `ConnState`, which both views keep using. -/
def snapshot (c : Conn) : Conn := ⟨c.most_recent_result⟩

/-- `CryptolConnection.protocol_state` (lines 306-310): the fresh-state
token `[]` when no interaction has been issued, otherwise
`most_recent_result.state()` — for a `CryptolQuery` the stored
`init_state` (no I/O), for a `CryptolCommand` the `state` field of its
reply, resolved through `wait_for_reply_to` (with no new socket input
here; the interaction's `_raw_response` cache is immaterial because a
stored reply is never overwritten). -/
def protocol_state (c : Conn) (st : ConnState) :
    Except Halt (PyVal × ConnState) :=
  match c.most_recent_result with
  | Option.none => .ok (.list [], st)
  | some i =>
    if i.isQuery then .ok (i.init_state, st)
    else
      match wait_for_reply_to [] st i.request_id with
      | .error h => .error h
      | .ok (st1, res) =>
        match command_state res with
        | .ok s => .ok (s, st1)
        | .error e => .error (.exn e)

/-- `CryptolInteraction.__init__` plus the assignment
`self.most_recent_result = ...` in the issuing method
(`change_directory`/`load_file` for commands, and likewise
`evaluate_expression`/`call`/`names`, which assign the *query* to
`most_recent_result` too): capture `init_state = protocol_state()`, set
`params['state']`, send, and point the session's cursor at the new
interaction. -/
def issue (isQ : Bool) (c : Conn) (st : ConnState) (method : String)
    (ps : List (PyVal × PyVal)) : Except Halt (Conn × ConnState × Interaction) :=
  match protocol_state c st with
  | .error h => .error h
  | .ok (s, st1) =>
    let ps' := assocSet ps (.str "state") s
    let (st2, rid) := send_message st1 method ps'
    let i : Interaction := ⟨rid, isQ, s, method, ps'⟩
    .ok (⟨some i⟩, st2, i)

/-- The server's side of one exchange: a decoded reply for a fresh
request id appears in the shared reply mapping — the effect of
`process_replies` on a complete framed reply (modelled byte-exactly in
the transport section; claims about state threading use this structured
form). -/
def deliver (rid : Nat) (r : PyVal) (st : ConnState) : ConnState :=
  { st with replies := assocSet st.replies (.int rid) r }

/-- Client/server steps that are not Commands, for frame conditions. -/
inductive Step : Type where
  | qry (method : String) (ps : List (PyVal × PyVal)) : Step
  | deliver (rid : Nat) (r : PyVal) : Step

/-- Run a sequence of non-Command steps.  A delivery for an id that is
already present is refused: the spec's §3 invariant says a reply mapping
entry is populated once per identifier and never overwritten. -/
def runNonCmd : List Step → Conn → ConnState → Except Halt (Conn × ConnState)
  | [], c, st => .ok (c, st)
  | .qry m ps :: rest, c, st =>
    match issue true c st m ps with
    | .error h => .error h
    | .ok (c', st', _) => runNonCmd rest c' st'
  | .deliver rid r :: rest, c, st =>
    if (assocFind st.replies (.int rid)).isSome then
      .error (.exn (.valueError "duplicate reply id"))
    else runNonCmd rest c (deliver rid r st)

/-- A well-formed Command success reply carrying `answer`/`state`. -/
def mkCmdReply (rid : Nat) (ans s : PyVal) : PyVal :=
  .dict [(.str "jsonrpc", .str "2.0"), (.str "id", .int rid),
    (.str "result", .dict [(.str "answer", ans), (.str "state", s)])]

/-- A server error reply, optionally carrying a `data` member. -/
def mkErrReply (rid : Nat) (msg : String) (data : Option PyVal) : PyVal :=
  .dict [(.str "jsonrpc", .str "2.0"), (.str "id", .int rid),
    (.str "error", .dict
      ((.str "code", .int (-1)) :: (.str "message", .str msg) ::
        (match data with
         | some d => [(.str "data", d)]
         | Option.none => [])))]

/-! ## Claim C5 -/

/-- Claim C5: for every message `m`, `decode (encode m) = (m, b"")`; for
two messages, decoding the concatenation yields the first message with
exactly the second encoded message as remainder, and decoding that
remainder yields the second message; concretely `encode "hi" = b"2:hi,"`
and `decode b"2:hi,3:bye," = ("hi", b"3:bye,")`. -/
theorem c5_framing_roundtrip :
    (∀ m : String, decode (encode m) = .ok (m, []))
    ∧ (∀ m1 m2 : String,
        decode (encode m1 ++ encode m2) = .ok (m1, encode m2)
        ∧ decode (encode m2) = .ok (m2, []))
    ∧ encode "hi" = [50, 58, 104, 105, 44]
    ∧ decode [50, 58, 104, 105, 44, 51, 58, 98, 121, 101, 44]
        = .ok ("hi", [51, 58, 98, 121, 101, 44]) := by
  have hnil : ∀ m : String, decode (encode m) = .ok (m, []) := by
    intro m
    have h := decode_encode_append m []
    rwa [List.append_nil] at h
  exact ⟨hnil, fun m1 m2 => ⟨decode_encode_append m1 (encode m2), hnil m2⟩,
    rfl, rfl⟩

/-! ## Claim C1 -/

/-- Claim C1 (claimed round trip, refuted — code bug): the claim says
`from_cryptol_arg (to_cryptol_arg v)` is observationally equal to `v` for
every representable value.  The code decodes a tuple wire value to a
*generator* (the tuple branch of `from_cryptol_arg` builds a generator
expression without wrapping it in `tuple(...)`), which compares unequal
to the original tuple, and decoding a record raises `KeyError` because
the record branch looks each data key up in the outer wire object
(`val[k]` instead of `val['data'][k]`). -/
theorem c1_roundtrip_violation :
    (to_cryptol_arg (.tuple [.int 1, .int 2])
        = .ok (.dict [(.str "expression", .str "tuple"),
            (.str "data", .list [.int 1, .int 2])])
      ∧ from_cryptol_arg (.dict [(.str "expression", .str "tuple"),
            (.str "data", .list [.int 1, .int 2])])
          = .ok (.gen [.int 1, .int 2])
      ∧ PyVal.gen [.int 1, .int 2] ≠ PyVal.tuple [.int 1, .int 2]
      ∧ pyEq (.gen [.int 1, .int 2]) (.tuple [.int 1, .int 2]) = false)
    ∧ (to_cryptol_arg (.dict [(.str "a", .int 1)])
        = .ok (.dict [(.str "expression", .str "record"),
            (.str "data", .dict [(.str "a", .int 1)])])
      ∧ from_cryptol_arg (.dict [(.str "expression", .str "record"),
            (.str "data", .dict [(.str "a", .int 1)])])
          = .error (.keyError "a")) :=
  ⟨⟨rfl, rfl, fun h => PyVal.noConfusion h, rfl⟩, rfl, rfl⟩

/-! ## Claim C7 -/

/-- Claim C7: a stored reply bearing an `error` object makes every
resolution path — a Command's result and state, and a Query's result —
raise `CryptolException` carrying the server message verbatim, with the
`data` payload appended when present, and no answer is produced. -/
theorem c7_error_reply (msg : String) :
    result_and_state (mkErrReply 1 msg Option.none)
        = .error (.cryptolException msg)
    ∧ command_state (mkErrReply 1 msg Option.none)
        = .error (.cryptolException msg)
    ∧ command_result_arg (mkErrReply 1 msg Option.none)
        = .error (.cryptolException msg)
    ∧ query_result (mkErrReply 1 msg Option.none)
        = .error (.cryptolException msg)
    ∧ result_and_state (mkErrReply 1 msg (some (.int 42)))
        = .error (.cryptolException (msg ++ " " ++ "42"))
    ∧ query_result (mkErrReply 1 msg (some (.int 42)))
        = .error (.cryptolException (msg ++ " " ++ "42")) :=
  ⟨rfl, rfl, rfl, rfl, rfl, rfl⟩

/-! ## Claim C10 -/

/-- Claim C10: a reply with neither `error` nor `result` makes
`_result_and_state` fall through to Python `None` instead of raising
`CryptolException`; `state()` and `result()` then die subscripting `None`
(a `TypeError`), while a Query's `_result` returns `None` and `result()`
hands `None` to `process_result` (the identity for
`CryptolEvalExpr`). -/
theorem c10_fallthrough (es : List (PyVal × PyVal))
    (herr : assocFind es (.str "error") = Option.none)
    (hres : assocFind es (.str "result") = Option.none) :
    result_and_state (.dict es) = .ok PyVal.none
    ∧ command_state (.dict es)
        = .error (.typeError "NoneType object is not subscriptable")
    ∧ command_result_arg (.dict es)
        = .error (.typeError "NoneType object is not subscriptable")
    ∧ query_result (.dict es) = .ok PyVal.none
    ∧ evalExpr_result (.dict es) = .ok PyVal.none := by
  have h1 : result_and_state (.dict es) = .ok PyVal.none := by
    rw [result_and_state]
    simp only [pyContains, herr, hres, Option.isSome]
    rfl
  have h4 : query_result (.dict es) = .ok PyVal.none := by
    rw [query_result]
    simp only [pyContains, herr, hres, Option.isSome]
    rfl
  refine ⟨h1, ?_, ?_, h4, ?_⟩
  · rw [command_state]
    show (result_and_state (.dict es)) >>= _ = _
    rw [h1]
    rfl
  · rw [command_result_arg]
    show (result_and_state (.dict es)) >>= _ = _
    rw [h1]
    rfl
  · rw [evalExpr_result, h4]
    rfl

/-- Witness for C10 at the concrete reply `{"id": 1}`. -/
theorem c10_witness :
    result_and_state (.dict [(.str "id", .int 1)]) = .ok PyVal.none
    ∧ command_state (.dict [(.str "id", .int 1)])
        = .error (.typeError "NoneType object is not subscriptable") :=
  ⟨(c10_fallthrough [(.str "id", .int 1)] rfl rfl).1,
   (c10_fallthrough [(.str "id", .int 1)] rfl rfl).2.1⟩

/-! ## Claim C8 -/

/-- Pumping an empty drain into a state is the identity on the record. -/
theorem buffer_replies_nil (st : ConnState) : buffer_replies [] st = st := by
  cases st
  simp [buffer_replies]

/-- The bytes `b"qqq"`: no digit prefix, so no completion of this buffer
ever decodes — a genuinely malformed frame, not an incomplete one. -/
def c8buf : List Nat := [113, 113, 113]

def c8st : ConnState := ⟨0, c8buf, [], []⟩

/-- Counterexample to claim C8: on the genuinely malformed buffer
`b"qqq"` the decoder raises the malformed-netstring `ValueError`, yet
`get_one_reply` swallows it exactly like an incomplete frame — no
message, buffer intact — and a caller waiting on any identifier spins
forever (`blocked`) instead of receiving the error. -/
theorem c8_counterexample :
    decode c8buf = .error (.valueError "Malformed netstring, missing :")
    ∧ get_one_reply c8st = (c8st, Option.none)
    ∧ wait_for_reply_to [] c8st 4 = .error Halt.blocked :=
  ⟨rfl, rfl, rfl⟩

/-- Claim C8 as amended: *every* framing-decode failure — incomplete
buffer or genuinely malformed frame alike, the two being exactly the
`IndexError`/`ValueError` outcomes of `decode` — is swallowed by
`get_one_reply`, which reports no message and leaves the buffer intact;
the pump then stops quietly, and a wait either resolves from
already-stored replies or blocks forever.  No framing error propagates to
the caller. -/
theorem c8_amended (st : ConnState) (e : PyErr)
    (hdec : decode st.buf = .error e) :
    get_one_reply st = (st, Option.none)
    ∧ process_replies [] st = .ok st
    ∧ (∀ rid : Nat, assocFind st.replies (.int rid) = Option.none →
        wait_for_reply_to [] st rid = .error Halt.blocked)
    ∧ (∀ (rid : Nat) (r : PyVal), assocFind st.replies (.int rid) = some r →
        wait_for_reply_to [] st rid = .ok (st, r)) := by
  have h0 : get_one_reply st = (st, Option.none) := by
    rw [get_one_reply, hdec]
  have h1 : process_replies [] st = .ok st := by
    rw [process_replies, buffer_replies_nil, pumpReplies, h0]
  refine ⟨h0, h1, ?_, ?_⟩
  · intro rid hnone
    rw [wait_for_reply_to, h1]
    simp only [hnone]
  · intro rid r hsome
    rw [wait_for_reply_to, h1]
    simp only [hsome]

/-! ## Session-layer lemmas -/

theorem pyEq_self_int (n : Int) : pyEq (.int n) (.int n) = true := by
  simp [pyEq]

theorem pyEq_self_str (s : String) : pyEq (.str s) (.str s) = true := by
  simp [pyEq]

theorem assocFind_assocSet_self (l : List (PyVal × PyVal)) (k v : PyVal)
    (hk : pyEq k k = true) : assocFind (assocSet l k v) k = some v := by
  induction l with
  | nil => simp [assocSet, assocFind, hk]
  | cons hd tl ih =>
    obtain ⟨k', v'⟩ := hd
    by_cases h : pyEq k' k = true
    · simp [assocSet, h, assocFind]
    · have h' : pyEq k' k = false := by
        revert h
        cases pyEq k' k <;> simp
      simp [assocSet, h', assocFind, ih]

/-- Updating an integer key leaves lookups of a different integer key
unchanged (reply-mapping keys are the servers' integer ids). -/
theorem assocFind_assocSet_int_ne (l : List (PyVal × PyVal)) (m n : Int)
    (v : PyVal) (hne : m ≠ n) :
    assocFind (assocSet l (.int m) v) (.int n) = assocFind l (.int n) := by
  have hmn : pyEq (.int m) (.int n) = false := by
    simp [pyEq]
    omega
  induction l with
  | nil => simp [assocSet, assocFind, hmn]
  | cons hd tl ih =>
    obtain ⟨k', v'⟩ := hd
    by_cases h : pyEq k' (.int m) = true
    · have hk' : k' = .int m := by
        cases k' <;> simp_all [pyEq]
      subst hk'
      simp [assocSet, h, assocFind, hmn]
    · have h' : pyEq k' (.int m) = false := by
        revert h
        cases pyEq k' (.int m) <;> simp
      by_cases h2 : pyEq k' (.int n) = true
      · simp [assocSet, h', assocFind, h2]
      · have h2' : pyEq k' (.int n) = false := by
          revert h2
          cases pyEq k' (.int n) <;> simp
        simp [assocSet, h', assocFind, h2', ih]

/-- With an already-empty buffer and no new socket bytes, the pump is a
no-op. -/
theorem process_replies_nil (st : ConnState) (h : st.buf = []) :
    process_replies [] st = .ok st := by
  have hg : get_one_reply st = (st, Option.none) := by
    rw [get_one_reply, h]
    rfl
  rw [process_replies, buffer_replies_nil, h]
  simp only [List.length_nil]
  rw [pumpReplies, hg]

/-- `protocol_state` of a cursor pointing at a Command whose reply is
stored and resolves to state `s`. -/
theorem protocol_state_cmd (i : Interaction) (st : ConnState)
    (res s : PyVal) (hq : i.isQuery = false) (hbuf : st.buf = [])
    (hres : assocFind st.replies (.int i.request_id) = some res)
    (hcs : command_state res = .ok s) :
    protocol_state ⟨some i⟩ st = .ok (s, st) := by
  rw [protocol_state]
  simp only [hq, Bool.false_eq_true, if_false]
  rw [wait_for_reply_to, process_replies_nil st hbuf]
  simp only [hres, hcs]

/-- `protocol_state` of a cursor pointing at a Query: the stored
snapshot, independent of the shared state. -/
theorem protocol_state_qry (i : Interaction) (st : ConnState)
    (hq : i.isQuery = true) :
    protocol_state ⟨some i⟩ st = .ok (i.init_state, st) := by
  rw [protocol_state]
  simp only [hq, if_true]

/-- `issue` in terms of the session's current state token. -/
theorem issue_of_protocol_state (isQ : Bool) (c : Conn) (st : ConnState)
    (m : String) (ps : List (PyVal × PyVal)) (s : PyVal)
    (hps : protocol_state c st = .ok (s, st)) :
    issue isQ c st m ps = .ok
      (⟨some ⟨st.nextId + 1, isQ, s, m, assocSet ps (.str "state") s⟩⟩,
       { st with
           nextId := st.nextId + 1
           sent := st.sent
             ++ [⟨st.nextId + 1, m, assocSet ps (.str "state") s⟩] },
       ⟨st.nextId + 1, isQ, s, m, assocSet ps (.str "state") s⟩) := by
  rw [issue, hps]
  rfl

/-- Resolving a well-formed Command reply: the answer/state pair. -/
theorem command_state_mkCmdReply (rid : Nat) (ans s : PyVal) :
    command_state (mkCmdReply rid ans s) = .ok s := rfl

/-- Inversion: a Command-cursor session with token `s` has a stored reply
resolving to `s`. -/
theorem protocol_state_cmd_inv (i : Interaction) (st : ConnState) (s : PyVal)
    (hq : i.isQuery = false) (hbuf : st.buf = [])
    (hps : protocol_state ⟨some i⟩ st = .ok (s, st)) :
    ∃ res, assocFind st.replies (.int i.request_id) = some res
      ∧ command_state res = .ok s := by
  rw [protocol_state] at hps
  simp only [hq, Bool.false_eq_true, if_false] at hps
  rw [wait_for_reply_to, process_replies_nil st hbuf] at hps
  cases hres : assocFind st.replies (.int i.request_id) with
  | none =>
    simp only [hres, reduceCtorEq] at hps
  | some res =>
    simp only [hres] at hps
    cases hcs : command_state res with
    | error e =>
      simp only [hcs, reduceCtorEq] at hps
    | ok s' =>
      simp only [hcs, Except.ok.injEq, Prod.mk.injEq] at hps
      exact ⟨res, rfl, by rw [hcs, hps.1]⟩

/-- Storing a reply for a fresh request id does not disturb any session's
current state token. -/
theorem protocol_state_deliver (c : Conn) (st : ConnState) (s : PyVal)
    (rid : Nat) (r : PyVal) (hbuf : st.buf = [])
    (hfresh : assocFind st.replies (.int rid) = Option.none)
    (hps : protocol_state c st = .ok (s, st)) :
    protocol_state c (deliver rid r st) = .ok (s, deliver rid r st) := by
  obtain ⟨mrr⟩ := c
  cases mrr with
  | none =>
    have hs : s = .list [] := by
      rw [protocol_state] at hps
      exact ((Prod.mk.inj (Except.ok.inj hps)).1).symm
    subst hs
    rfl
  | some i =>
    by_cases hq : i.isQuery
    · rw [protocol_state_qry i st hq] at hps
      have hs := (Prod.mk.inj (Except.ok.inj hps)).1
      rw [protocol_state_qry i _ hq, hs]
    · have hq' : i.isQuery = false := by
        revert hq
        cases i.isQuery <;> simp
      obtain ⟨res, hres, hcs⟩ := protocol_state_cmd_inv i st s hq' hbuf hps
      have hne : rid ≠ i.request_id := by
        intro h
        subst h
        rw [hres] at hfresh
        exact Option.noConfusion hfresh
      refine protocol_state_cmd i (deliver rid r st) res s hq' hbuf ?_ hcs
      show assocFind (assocSet st.replies (.int rid) r) (.int i.request_id)
        = some res
      rw [assocFind_assocSet_int_ne st.replies rid i.request_id r
        (by exact_mod_cast hne), hres]

/-! ## Claim C4 -/

/-- Claim C4: issuing a Query never advances the session's state token:
the token the Query sends is the one captured at construction (a
snapshot, provably independent of any later shared state), and after the
Query is issued the session's current token equals the token immediately
before. -/
theorem c4_query_frame (c : Conn) (st : ConnState) (m : String)
    (ps : List (PyVal × PyVal)) (s : PyVal)
    (hps : protocol_state c st = .ok (s, st)) :
    ∃ c' st' i, issue true c st m ps = .ok (c', st', i)
      ∧ i.init_state = s
      ∧ assocFind i.params (.str "state") = some s
      ∧ (∀ st2 : ConnState, protocol_state c' st2 = .ok (s, st2))
      ∧ protocol_state c' st' = .ok (s, st')
      ∧ st'.sent = st.sent ++ [⟨i.request_id, m, i.params⟩] := by
  refine ⟨_, _, _, issue_of_protocol_state true c st m ps s hps, rfl, ?_, ?_, ?_,
    rfl⟩
  · exact assocFind_assocSet_self ps (.str "state") s (pyEq_self_str "state")
  · intro st2
    exact protocol_state_qry _ st2 rfl
  · exact protocol_state_qry _ _ rfl

/-- Witness for C4: a Query on a fresh session sends the fresh token `[]`
and leaves the token `[]`. -/
theorem c4_witness :
    ∃ c' st' i, issue true ⟨Option.none⟩ ⟨0, [], [], []⟩ "visible names" []
        = .ok (c', st', i)
      ∧ i.init_state = .list []
      ∧ assocFind i.params (.str "state") = some (.list [])
      ∧ (∀ st2 : ConnState, protocol_state c' st2 = .ok (.list [], st2))
      ∧ protocol_state c' st' = .ok (.list [], st')
      ∧ st'.sent = [] ++ [⟨i.request_id, "visible names", i.params⟩] :=
  c4_query_frame ⟨Option.none⟩ ⟨0, [], [], []⟩ "visible names" [] (.list []) rfl

/-! ## Claim C2 -/

/-- Claim C2: the `state` parameter of every issued request is the fresh
token `[]` when no Command has been issued on the session, and otherwise
exactly the `state` carried in the reply to the session's most recent
Command: (a) a fresh session sends `[]`; (b) a session whose cursor is a
Command with a stored reply resolving to `s` sends `s`; (c) interposing
Queries and fresh reply deliveries never changes the token; (d) in
particular, of two Commands issued sequentially the second carries
exactly the state from the first one's reply. -/
theorem c2_state_threading :
    (∀ (st : ConnState) (m : String) (ps : List (PyVal × PyVal)),
      protocol_state ⟨Option.none⟩ st = .ok (.list [], st)
      ∧ ∃ c' st' i, issue false ⟨Option.none⟩ st m ps = .ok (c', st', i)
          ∧ assocFind i.params (.str "state") = some (.list [])
          ∧ st'.sent = st.sent ++ [⟨i.request_id, m, i.params⟩])
    ∧ (∀ (i : Interaction) (st : ConnState) (res s : PyVal) (m : String)
         (ps : List (PyVal × PyVal)),
      i.isQuery = false → st.buf = [] →
      assocFind st.replies (.int i.request_id) = some res →
      command_state res = .ok s →
      ∃ c' st' i2, issue false ⟨some i⟩ st m ps = .ok (c', st', i2)
        ∧ assocFind i2.params (.str "state") = some s
        ∧ st'.sent = st.sent ++ [⟨i2.request_id, m, i2.params⟩])
    ∧ (∀ (steps : List Step) (c c' : Conn) (st st' : ConnState) (s : PyVal),
      st.buf = [] → protocol_state c st = .ok (s, st) →
      runNonCmd steps c st = .ok (c', st') →
      protocol_state c' st' = .ok (s, st') ∧ st'.buf = [])
    ∧ (∀ (st : ConnState) (m1 m2 : String)
         (ps1 ps2 : List (PyVal × PyVal)) (ans s : PyVal)
         (c1 : Conn) (st1 : ConnState) (i1 : Interaction),
      st.buf = [] →
      issue false ⟨Option.none⟩ st m1 ps1 = .ok (c1, st1, i1) →
      ∃ c2 st2 i2,
        issue false c1
          (deliver i1.request_id (mkCmdReply i1.request_id ans s) st1) m2 ps2
          = .ok (c2, st2, i2)
        ∧ assocFind i2.params (.str "state") = some s) := by
  have hself : ∀ (ps : List (PyVal × PyVal)) (s : PyVal),
      assocFind (assocSet ps (.str "state") s) (.str "state") = some s :=
    fun ps s => assocFind_assocSet_self ps (.str "state") s (pyEq_self_str _)
  refine ⟨?_, ?_, ?_, ?_⟩
  · intro st m ps
    exact ⟨rfl, _, _, _,
      issue_of_protocol_state false ⟨Option.none⟩ st m ps (.list []) rfl,
      hself ps (.list []), rfl⟩
  · intro i st res s m ps hq hbuf hres hcs
    exact ⟨_, _, _,
      issue_of_protocol_state false ⟨some i⟩ st m ps s
        (protocol_state_cmd i st res s hq hbuf hres hcs),
      hself ps s, rfl⟩
  · intro steps
    induction steps with
    | nil =>
      intro c c' st st' s hbuf hps hrun
      rw [runNonCmd] at hrun
      obtain ⟨h1, h2⟩ := Prod.mk.inj (Except.ok.inj hrun)
      subst h1
      subst h2
      exact ⟨hps, hbuf⟩
    | cons step rest ih =>
      intro c c' st st' s hbuf hps hrun
      cases step with
      | qry m ps =>
        rw [runNonCmd] at hrun
        simp only [issue_of_protocol_state true c st m ps s hps] at hrun
        refine ih _ c' _ st' s ?_ ?_ hrun
        · exact hbuf
        · exact protocol_state_qry _ _ rfl
      | deliver rid r =>
        rw [runNonCmd] at hrun
        by_cases hfresh : (assocFind st.replies (.int rid)).isSome
        · rw [if_pos hfresh] at hrun
          exact absurd hrun (by simp)
        · rw [if_neg hfresh] at hrun
          have hfresh' : assocFind st.replies (.int rid) = Option.none := by
            revert hfresh
            cases assocFind st.replies (.int rid) <;> simp
          refine ih _ c' _ st' s ?_ ?_ hrun
          · exact hbuf
          · exact protocol_state_deliver c st s rid r hbuf hfresh' hps
  · intro st m1 m2 ps1 ps2 ans s c1 st1 i1 hbuf hiss1
    rw [issue_of_protocol_state false ⟨Option.none⟩ st m1 ps1 (.list []) rfl]
      at hiss1
    obtain ⟨hc1, hrest⟩ := Prod.mk.inj (Except.ok.inj hiss1)
    obtain ⟨hst1, hi1⟩ := Prod.mk.inj hrest
    subst hc1
    subst hst1
    subst hi1
    have hps2 : protocol_state
        ⟨some ⟨st.nextId + 1, false, .list [], m1,
          assocSet ps1 (.str "state") (.list [])⟩⟩
        (deliver (st.nextId + 1) (mkCmdReply (st.nextId + 1) ans s)
          { st with
              nextId := st.nextId + 1
              sent := st.sent ++ [⟨st.nextId + 1, m1,
                assocSet ps1 (.str "state") (.list [])⟩] })
        = .ok (s, deliver (st.nextId + 1) (mkCmdReply (st.nextId + 1) ans s)
          { st with
              nextId := st.nextId + 1
              sent := st.sent ++ [⟨st.nextId + 1, m1,
                assocSet ps1 (.str "state") (.list [])⟩] }) := by
      refine protocol_state_cmd _ _ (mkCmdReply (st.nextId + 1) ans s) s rfl
        ?_ ?_ (command_state_mkCmdReply _ ans s)
      · exact hbuf
      · exact assocFind_assocSet_self st.replies (.int (st.nextId + 1))
          (mkCmdReply (st.nextId + 1) ans s) (pyEq_self_int _)
    exact ⟨_, _, _, issue_of_protocol_state false _ _ m2 ps2 s hps2, hself ps2 s⟩

/-- Witness for C2: a fresh session sends `[]`; after its Command's reply
arrives carrying state `"tok"`, the next Command sends `"tok"`. -/
theorem c2_witness :
    (protocol_state ⟨Option.none⟩ ⟨0, [], [], []⟩
        = .ok (.list [], ⟨0, [], [], []⟩))
    ∧ (∃ c' st' i,
        issue false ⟨Option.none⟩ ⟨0, [], [], []⟩ "load module" []
          = .ok (c', st', i)
        ∧ assocFind i.params (.str "state") = some (.list [])
        ∧ st'.sent = [] ++ [⟨i.request_id, "load module", i.params⟩])
    ∧ (∃ c2 st2 i2,
        issue false (⟨some ⟨1, false, .list [], "load module",
            [(.str "state", .list [])]⟩⟩ : Conn)
          (deliver 1 (mkCmdReply 1 (.bool true) (.str "tok"))
            ⟨1, [], [], [⟨1, "load module", [(.str "state", .list [])]⟩]⟩)
          "load file" []
          = .ok (c2, st2, i2)
        ∧ assocFind i2.params (.str "state") = some (.str "tok")) :=
  ⟨(c2_state_threading.1 ⟨0, [], [], []⟩ "load module" []).1,
   (c2_state_threading.1 ⟨0, [], [], []⟩ "load module" []).2,
   c2_state_threading.2.2.2 ⟨0, [], [], []⟩ "load module" "load file" [] []
     (.bool true) (.str "tok") _ _ _ rfl rfl⟩

/-! ## Claim C3 -/

/-- Claim C3: after Command C1 completes with state `s`, forking and then
issuing C2 on the original and C3 on the fork sends `s` as the state of
both requests; the two requests draw distinct identifiers from the shared
source (consecutive values of the one counter), each issue moves only the
issuing session's cursor (the fork still points at C1 and still resolves
`s` after C2 is sent), and both messages appear in order on the one
shared socket log. -/
theorem c3_fork (st : ConnState) (i1 : Interaction) (res s : PyVal)
    (m2 m3 : String) (ps2 ps3 : List (PyVal × PyVal))
    (hq : i1.isQuery = false) (hbuf : st.buf = [])
    (hres : assocFind st.replies (.int i1.request_id) = some res)
    (hcs : command_state res = .ok s) :
    ∃ c2 st2 i2 c3 st3 i3,
      issue false ⟨some i1⟩ st m2 ps2 = .ok (c2, st2, i2)
      ∧ issue false (snapshot ⟨some i1⟩) st2 m3 ps3 = .ok (c3, st3, i3)
      ∧ assocFind i2.params (.str "state") = some s
      ∧ assocFind i3.params (.str "state") = some s
      ∧ i2.request_id = st.nextId + 1
      ∧ i3.request_id = st.nextId + 2
      ∧ i2.request_id ≠ i3.request_id
      ∧ c2.most_recent_result = some i2
      ∧ c3.most_recent_result = some i3
      ∧ (snapshot ⟨some i1⟩).most_recent_result = some i1
      ∧ protocol_state (snapshot ⟨some i1⟩) st2 = .ok (s, st2)
      ∧ st3.sent = st.sent ++ [⟨i2.request_id, m2, i2.params⟩,
          ⟨i3.request_id, m3, i3.params⟩] := by
  have hps : protocol_state ⟨some i1⟩ st = .ok (s, st) :=
    protocol_state_cmd i1 st res s hq hbuf hres hcs
  have hiss2 := issue_of_protocol_state false ⟨some i1⟩ st m2 ps2 s hps
  have hps2 : protocol_state (snapshot ⟨some i1⟩)
      ({ st with
          nextId := st.nextId + 1
          sent := st.sent
            ++ [⟨st.nextId + 1, m2, assocSet ps2 (.str "state") s⟩] })
      = .ok (s, _) :=
    protocol_state_cmd i1 _ res s hq hbuf hres hcs
  have hiss3 := issue_of_protocol_state false (snapshot ⟨some i1⟩) _ m3 ps3 s
    hps2
  refine ⟨_, _, _, _, _, _, hiss2, hiss3, ?_, ?_, rfl, rfl,
    (show st.nextId + 1 ≠ st.nextId + 1 + 1 by omega), rfl, rfl,
    rfl, hps2, ?_⟩
  · exact assocFind_assocSet_self ps2 (.str "state") s (pyEq_self_str _)
  · exact assocFind_assocSet_self ps3 (.str "state") s (pyEq_self_str _)
  · simp

/-- Witness for C3 at a concrete completed first Command. -/
theorem c3_witness :
    ∃ c2 st2 i2 c3 st3 i3,
      issue false ⟨some ⟨1, false, .list [], "load module",
          [(.str "state", .list [])]⟩⟩
        ⟨1, [], [(.int 1, mkCmdReply 1 (.bool true) (.str "tok"))], []⟩
        "call" [] = .ok (c2, st2, i2)
      ∧ issue false (snapshot ⟨some ⟨1, false, .list [], "load module",
          [(.str "state", .list [])]⟩⟩) st2 "names" [] = .ok (c3, st3, i3)
      ∧ assocFind i2.params (.str "state") = some (.str "tok")
      ∧ assocFind i3.params (.str "state") = some (.str "tok")
      ∧ i2.request_id = 2
      ∧ i3.request_id = 3
      ∧ i2.request_id ≠ i3.request_id
      ∧ c2.most_recent_result = some i2
      ∧ c3.most_recent_result = some i3
      ∧ (snapshot ⟨some ⟨1, false, .list [], "load module",
          [(.str "state", .list [])]⟩⟩).most_recent_result
          = some ⟨1, false, .list [], "load module", [(.str "state", .list [])]⟩
      ∧ protocol_state (snapshot ⟨some ⟨1, false, .list [], "load module",
          [(.str "state", .list [])]⟩⟩) st2 = .ok (.str "tok", st2)
      ∧ st3.sent = [] ++ [⟨i2.request_id, "call", i2.params⟩,
          ⟨i3.request_id, "names", i3.params⟩] :=
  c3_fork ⟨1, [], [(.int 1, mkCmdReply 1 (.bool true) (.str "tok"))], []⟩
    ⟨1, false, .list [], "load module", [(.str "state", .list [])]⟩
    (mkCmdReply 1 (.bool true) (.str "tok")) (.str "tok") "call" "names" [] []
    rfl rfl (by simp [assocFind, pyEq]) rfl

/-! ## Claim C9 -/

/-- Did a computation raise a `TypeError`? -/
def isTypeErrorResult : Except PyErr PyVal → Bool
  | .error (.typeError _) => true
  | _ => false

/-- Did a computation succeed? -/
def exceptIsOk {α : Type} : Except PyErr α → Bool
  | .ok _ => true
  | .error _ => false

/-- Is an exception a `TypeError` or an `AttributeError`? -/
def errTA : PyErr → Bool
  | .typeError _ => true
  | .attributeError _ => true
  | _ => false

/-- Every failure of this computation is a `TypeError` or an
`AttributeError` (successes pass trivially). -/
def exceptErrTA {α : Type} : Except PyErr α → Bool
  | .ok _ => true
  | .error e => errTA e

def isStrVal : PyVal → Bool
  | .str _ => true
  | _ => false

/-- Does a mapping contain at least one non-string key? -/
def hasNonStrKey : PyVal → Bool
  | .dict es => es.any (fun kv => !isStrVal kv.1)
  | _ => false

mutual

/-- The representable set of the spec's Value Codec: booleans, integers,
byte strings, and tuples/sequences/string-keyed mappings of representable
values (no `CryptolCode`: encoding one always raises). -/
def pureRepresentable : PyVal → Bool
  | .bool _ => true
  | .int _ => true
  | .bytes _ => true
  | .tuple xs => pureRepList xs
  | .list xs => pureRepList xs
  | .dict es => pureRepEntries es
  | _ => false

def pureRepList : List PyVal → Bool
  | [] => true
  | x :: xs => pureRepresentable x && pureRepList xs

def pureRepEntries : List (PyVal × PyVal) → Bool
  | [] => true
  | (k, v) :: rest => isStrVal k && pureRepresentable v && pureRepEntries rest

end

/-- The mapping `{"a": CryptolLiteral("x"), 1: 2}`: it has a non-string
key, but the entry before that key holds a `CryptolCode` value. -/
def c9cex : PyVal := .dict [(.str "a", .code "x"), (.int 1, .int 2)]

/-- Counterexample to claim C9: on the mapping
`{"a": CryptolLiteral("x"), 1: 2}` — which does contain a non-string key
— `to_cryptol_arg` raises `AttributeError` (the `CryptolCode` branch
reads the nonexistent attribute `code` while encoding the earlier entry's
value), not the `TypeError` the claim promises for every such mapping. -/
theorem c9_counterexample :
    hasNonStrKey c9cex = true
    ∧ to_cryptol_arg c9cex = .error (.attributeError "code")
    ∧ isTypeErrorResult (to_cryptol_arg c9cex) = false :=
  ⟨rfl, rfl, rfl⟩

/-- Success characterisation of the encoder: `to_cryptol_arg` succeeds
exactly on the representable set, and every failure is a `TypeError` or —
when a `CryptolCode` is reached — an `AttributeError`. -/
theorem to_cryptol_arg_ok_characterisation : ∀ v : PyVal,
    exceptIsOk (to_cryptol_arg v) = pureRepresentable v
    ∧ exceptErrTA (to_cryptol_arg v) = true := by
  refine to_cryptol_arg.induct
    (fun v => exceptIsOk (to_cryptol_arg v) = pureRepresentable v
      ∧ exceptErrTA (to_cryptol_arg v) = true)
    (fun es => exceptIsOk (encRecord es) = pureRepEntries es
      ∧ exceptErrTA (encRecord es) = true)
    (fun xs => exceptIsOk (encList xs) = pureRepList xs
      ∧ exceptErrTA (encList xs) = true)
    ?_ ?_ ?_ ?_ ?_ ?_ ?_ ?_ ?_ ?_ ?_ ?_ ?_ ?_ ?_ ?_ ?_ ?_ ?_ ?_ ?_
  · intro b
    exact ⟨rfl, rfl⟩
  · exact ⟨rfl, rfl⟩
  · intro x xs d h ih
    have ht : to_cryptol_arg (.tuple (x :: xs))
        = .ok (.dict [(.str "expression", .str "tuple"),
            (.str "data", .list d)]) := by
      rw [to_cryptol_arg, h]
    have h1 := ih.1
    rw [h] at h1
    exact ⟨by rw [ht, pureRepresentable, ← h1]; rfl, by rw [ht]; rfl⟩
  · intro x xs e h ih
    have ht : to_cryptol_arg (.tuple (x :: xs)) = .error e := by
      rw [to_cryptol_arg, h]
    have h1 := ih.1
    rw [h] at h1
    have h2 := ih.2
    rw [h] at h2
    exact ⟨by rw [ht, pureRepresentable, ← h1]; rfl, by rw [ht]; exact h2⟩
  · intro es d h ih
    have ht : to_cryptol_arg (.dict es)
        = .ok (.dict [(.str "expression", .str "record"),
            (.str "data", .dict d)]) := by
      rw [to_cryptol_arg, h]
    have h1 := ih.1
    rw [h] at h1
    exact ⟨by rw [ht, pureRepresentable, ← h1]; rfl, by rw [ht]; rfl⟩
  · intro es e h ih
    have ht : to_cryptol_arg (.dict es) = .error e := by
      rw [to_cryptol_arg, h]
    have h1 := ih.1
    rw [h] at h1
    have h2 := ih.2
    rw [h] at h2
    exact ⟨by rw [ht, pureRepresentable, ← h1]; rfl, by rw [ht]; exact h2⟩
  · intro n
    exact ⟨rfl, rfl⟩
  · intro xs d h ih
    have ht : to_cryptol_arg (.list xs)
        = .ok (.dict [(.str "expression", .str "sequence"),
            (.str "data", .list d)]) := by
      rw [to_cryptol_arg, h]
    have h1 := ih.1
    rw [h] at h1
    exact ⟨by rw [ht, pureRepresentable, ← h1]; rfl, by rw [ht]; rfl⟩
  · intro xs e h ih
    have ht : to_cryptol_arg (.list xs) = .error e := by
      rw [to_cryptol_arg, h]
    have h1 := ih.1
    rw [h] at h1
    have h2 := ih.2
    rw [h] at h2
    exact ⟨by rw [ht, pureRepresentable, ← h1]; rfl, by rw [ht]; exact h2⟩
  · intro c
    exact ⟨rfl, rfl⟩
  · intro bs
    exact ⟨rfl, rfl⟩
  · intro v hb ht0 htc hd hn hl hc hby
    cases v with
    | none => exact ⟨rfl, rfl⟩
    | str s => exact ⟨rfl, rfl⟩
    | gen xs => exact ⟨rfl, rfl⟩
    | bool b => exact absurd rfl (hb b)
    | tuple xs =>
      cases xs with
      | nil => exact absurd rfl ht0
      | cons a as => exact absurd rfl (htc a as)
    | dict es => exact absurd rfl (hd es)
    | int n => exact absurd rfl (hn n)
    | list xs => exact absurd rfl (hl xs)
    | code c => exact absurd rfl (hc c)
    | bytes bs => exact absurd rfl (hby bs)
  · exact ⟨rfl, rfl⟩
  · intro v vs c h1 d h2 ihv ihl
    have he : encList (v :: vs) = .ok (c :: d) := by rw [encList, h1, h2]
    have hv := ihv.1
    rw [h1] at hv
    have hl := ihl.1
    rw [h2] at hl
    exact ⟨by rw [he, pureRepList, ← hv, ← hl]; rfl, by rw [he]; rfl⟩
  · intro v vs c h1 e h2 ihv ihl
    have he : encList (v :: vs) = .error e := by rw [encList, h1, h2]
    have hv := ihv.1
    rw [h1] at hv
    have hl := ihl.1
    rw [h2] at hl
    have hl2 := ihl.2
    rw [h2] at hl2
    exact ⟨by rw [he, pureRepList, ← hv, ← hl]; rfl, by rw [he]; exact hl2⟩
  · intro v vs e h ihv
    have he : encList (v :: vs) = .error e := by rw [encList, h]
    have hv := ihv.1
    rw [h] at hv
    have hv2 := ihv.2
    rw [h] at hv2
    refine ⟨?_, by rw [he]; exact hv2⟩
    rw [he, pureRepList, ← hv]
    rfl
  · exact ⟨rfl, rfl⟩
  · intro v rest s c h1 d h2 ihv ihr
    have he : encRecord ((PyVal.str s, v) :: rest) = .ok ((PyVal.str s, c) :: d) := by
      rw [encRecord, h1, h2]
    have hv := ihv.1
    rw [h1] at hv
    have hr := ihr.1
    rw [h2] at hr
    exact ⟨by rw [he, pureRepEntries, ← hv, ← hr]; rfl, by rw [he]; rfl⟩
  · intro v rest s c h1 e h2 ihv ihr
    have he : encRecord ((PyVal.str s, v) :: rest) = .error e := by
      rw [encRecord, h1, h2]
    have hv := ihv.1
    rw [h1] at hv
    have hr := ihr.1
    rw [h2] at hr
    have hr2 := ihr.2
    rw [h2] at hr2
    exact ⟨by rw [he, pureRepEntries, ← hv, ← hr]; rfl, by rw [he]; exact hr2⟩
  · intro v rest s e h ihv
    have he : encRecord ((PyVal.str s, v) :: rest) = .error e := by
      rw [encRecord, h]
    have hv := ihv.1
    rw [h] at hv
    have hv2 := ihv.2
    rw [h] at hv2
    refine ⟨?_, by rw [he]; exact hv2⟩
    rw [he, pureRepEntries, ← hv]
    rfl
  · intro v rest v1 hnot
    cases v1 with
    | str s => exact absurd rfl (hnot s)
    | none => exact ⟨rfl, rfl⟩
    | bool b => exact ⟨rfl, rfl⟩
    | int n => exact ⟨rfl, rfl⟩
    | tuple xs => exact ⟨rfl, rfl⟩
    | list xs => exact ⟨rfl, rfl⟩
    | dict es => exact ⟨rfl, rfl⟩
    | bytes bs => exact ⟨rfl, rfl⟩
    | code c => exact ⟨rfl, rfl⟩
    | gen xs => exact ⟨rfl, rfl⟩

theorem exceptIsOk_exists {α : Type} {r : Except PyErr α}
    (h : exceptIsOk r = true) : ∃ c, r = .ok c := by
  cases r with
  | ok c => exact ⟨c, rfl⟩
  | error e => exact absurd h (by simp [exceptIsOk])

/-- `encRecord` fails fast with the key `TypeError` at the first
non-string key, provided the earlier entries encode cleanly. -/
theorem encRecord_fail_fast (pre : List (PyVal × PyVal))
    (post : List (PyVal × PyVal)) (k v : PyVal)
    (hpre : ∀ kv ∈ pre, isStrVal kv.1 = true ∧ pureRepresentable kv.2 = true)
    (hk : isStrVal k = false) :
    encRecord (pre ++ (k, v) :: post)
      = .error (.typeError "Record keys must be strings") := by
  induction pre with
  | nil =>
    simp only [List.nil_append]
    cases k with
    | str s => exact absurd hk (by simp [isStrVal])
    | none => rfl
    | bool b => rfl
    | int n => rfl
    | tuple xs => rfl
    | list xs => rfl
    | dict es => rfl
    | bytes bs => rfl
    | code c => rfl
    | gen xs => rfl
  | cons hd tl ih =>
    obtain ⟨k0, v0⟩ := hd
    have hh := hpre (k0, v0) (List.mem_cons_self _ _)
    have hiv := (to_cryptol_arg_ok_characterisation v0).1
    rw [hh.2] at hiv
    obtain ⟨c, hc⟩ := exceptIsOk_exists hiv
    have htl := ih (fun kv hkv => hpre kv (List.mem_cons_of_mem _ hkv))
    cases k0 with
    | str s =>
      rw [List.cons_append, encRecord, hc, htl]
    | none => exact absurd hh.1 (by simp [isStrVal])
    | bool b => exact absurd hh.1 (by simp [isStrVal])
    | int n => exact absurd hh.1 (by simp [isStrVal])
    | tuple xs => exact absurd hh.1 (by simp [isStrVal])
    | list xs => exact absurd hh.1 (by simp [isStrVal])
    | dict es => exact absurd hh.1 (by simp [isStrVal])
    | bytes bs => exact absurd hh.1 (by simp [isStrVal])
    | code c => exact absurd hh.1 (by simp [isStrVal])
    | gen xs => exact absurd hh.1 (by simp [isStrVal])

/-- Claim C9 as amended: `to_cryptol_arg` succeeds exactly on the
representable set (booleans, integers, tuples, string-keyed mappings with
representable values, lists, byte strings), and every value outside it
raises a `TypeError` — except that reaching a `CryptolCode` raises
`AttributeError`, because the branch reads the attribute `code` that
`CryptolLiteral` does not define.  A mapping with a non-string key raises
`TypeError("Record keys must be strings")` upon encountering that key,
provided the earlier entries are string-keyed with encodable values;
values of unsupported native type raise `TypeError` with the
`Unsupported value` message. -/
theorem c9_amended :
    (∀ (pre post : List (PyVal × PyVal)) (k v : PyVal),
        (∀ kv ∈ pre, isStrVal kv.1 = true ∧ pureRepresentable kv.2 = true) →
        isStrVal k = false →
        to_cryptol_arg (.dict (pre ++ (k, v) :: post))
          = .error (.typeError "Record keys must be strings"))
    ∧ (∀ v, exceptIsOk (to_cryptol_arg v) = pureRepresentable v)
    ∧ (∀ v, pureRepresentable v = false → exceptErrTA (to_cryptol_arg v) = true)
    ∧ (∀ s, to_cryptol_arg (.str s)
        = .error (.typeError ("Unsupported value: " ++ pyStr (.str s))))
    ∧ to_cryptol_arg PyVal.none = .error (.typeError "Unsupported value: None")
    ∧ (∀ c, to_cryptol_arg (.code c) = .error (.attributeError "code"))
    ∧ (∀ xs, isTypeErrorResult (to_cryptol_arg (.gen xs)) = true) := by
  refine ⟨?_, fun v => (to_cryptol_arg_ok_characterisation v).1,
    fun v _ => (to_cryptol_arg_ok_characterisation v).2,
    fun s => rfl, rfl, fun c => rfl, fun xs => rfl⟩
  intro pre post k v hpre hk
  rw [to_cryptol_arg, encRecord_fail_fast pre post k v hpre hk]

/-- Witness for the amended C9: the mapping `{"a": 1, 2: 3}` raises the
key `TypeError`, and `{"a": 1}` is representable and encodes. -/
theorem c9_witness :
    to_cryptol_arg (.dict [(.str "a", .int 1), (.int 2, .int 3)])
      = .error (.typeError "Record keys must be strings")
    ∧ exceptIsOk (to_cryptol_arg (.dict [(.str "a", .int 1)])) = true
    ∧ exceptErrTA (to_cryptol_arg (.str "s")) = true := by
  refine ⟨?_, ?_, ?_⟩
  · exact c9_amended.1 [(.str "a", .int 1)] [] (.int 2) (.int 3)
      (by intro kv hkv
          simp only [List.mem_singleton] at hkv
          subst hkv
          exact ⟨rfl, rfl⟩)
      rfl
  · rw [c9_amended.2.1 (.dict [(.str "a", .int 1)])]
    rfl
  · exact c9_amended.2.2.1 (.str "s") rfl

/-! ## Claim C6 -/

theorem assocSet_preserves_isSome (l : List (PyVal × PyVal)) (k k' v : PyVal)
    (h : (assocFind l k).isSome = true) :
    (assocFind (assocSet l k' v) k).isSome = true := by
  induction l with
  | nil => simp [assocFind] at h
  | cons hd tl ih =>
    obtain ⟨k0, v0⟩ := hd
    by_cases h0 : pyEq k0 k' = true
    · rw [assocSet, if_pos h0]
      by_cases h1 : pyEq k0 k = true
      · simp [assocFind, h1]
      · have h1' : pyEq k0 k = false := by
          revert h1
          cases pyEq k0 k <;> simp
        rw [assocFind, if_neg (by simp [h1'])] at h ⊢
        exact h
    · have h0' : pyEq k0 k' = false := by
        revert h0
        cases pyEq k0 k' <;> simp
      rw [assocSet, if_neg (by simp [h0'])]
      by_cases h1 : pyEq k0 k = true
      · simp [assocFind, h1]
      · have h1' : pyEq k0 k = false := by
          revert h1
          cases pyEq k0 k <;> simp
        rw [assocFind, if_neg (by simp [h1'])] at h ⊢
        exact ih h

/-- The reply-storing loop never drops a reply mapping entry. -/
theorem pumpReplies_retains (fuel : Nat) :
    ∀ (st st' : ConnState) (k : PyVal),
      (assocFind st.replies k).isSome = true →
      pumpReplies fuel st = .ok st' →
      (assocFind st'.replies k).isSome = true := by
  induction fuel with
  | zero =>
    intro st st' k h hp
    rw [pumpReplies] at hp
    exact absurd hp (by simp)
  | succ fuel ih =>
    intro st st' k h hp
    rw [pumpReplies] at hp
    cases hg : get_one_reply st with
    | mk st1 msg =>
      have hrep : st1.replies = st.replies := by
        have : (get_one_reply st).1.replies = st.replies := by
          rw [get_one_reply]
          cases decode st.buf <;> rfl
        rw [hg] at this
        exact this
      rw [hg] at hp
      cases msg with
      | none =>
        have hst : st1 = st' := Except.ok.inj hp
        rw [← hst, hrep]
        exact h
      | some r =>
        cases hj : jsonLoads r with
        | error e =>
          simp only [hj, reduceCtorEq] at hp
        | ok reply =>
          simp only [hj] at hp
          cases hs : subscript reply (.str "id") with
          | error e =>
            simp only [hs, reduceCtorEq] at hp
          | ok rid =>
            simp only [hs] at hp
            refine ih _ st' k ?_ hp
            show (assocFind (assocSet st1.replies rid reply) k).isSome = true
            rw [hrep]
            exact assocSet_preserves_isSome st.replies k rid reply h

/-- Retention through a full pump: already-stored replies survive any
processing of further socket bytes. -/
theorem process_replies_retains (incoming : List Nat)
    (st st' : ConnState) (k : PyVal)
    (h : (assocFind st.replies k).isSome = true)
    (hp : process_replies incoming st = .ok st') :
    (assocFind st'.replies k).isSome = true := by
  rw [process_replies] at hp
  exact pumpReplies_retains _ _ _ _ (by exact h) hp

/-- The framed JSON reply for request id 5. -/
def c6json5 : String :=
  "\x7b\"id\": 5, \"result\": \x7b\"answer\": 2, \"state\": []\x7d\x7d"

/-- The framed JSON reply for request id 4. -/
def c6json4 : String :=
  "\x7b\"id\": 4, \"result\": \x7b\"answer\": 1, \"state\": []\x7d\x7d"

/-- The decoded reply object for id 5. -/
def c6r5 : PyVal :=
  .dict [(.str "id", .int 5), (.str "result",
    .dict [(.str "answer", .int 2), (.str "state", .list [])])]

/-- The decoded reply object for id 4. -/
def c6r4 : PyVal :=
  .dict [(.str "id", .int 4), (.str "result",
    .dict [(.str "answer", .int 1), (.str "state", .list [])])]

/-- Claim C6: pumping the complete framed reply for id 5 first stores it;
a wait on id 4 then blocks without disturbing it; when id 4's bytes
arrive the wait on 4 resolves to id 4's reply while id 5's reply is still
stored; and in general the pump retains every stored reply — replies
nobody is waiting on are never dropped. -/
theorem c6_out_of_order :
    process_replies (encode c6json5) ⟨0, [], [], []⟩
        = .ok ⟨0, [], [(.int 5, c6r5)], []⟩
    ∧ wait_for_reply_to [] ⟨0, [], [(.int 5, c6r5)], []⟩ 4
        = .error Halt.blocked
    ∧ wait_for_reply_to (encode c6json4) ⟨0, [], [(.int 5, c6r5)], []⟩ 4
        = .ok (⟨0, [], [(.int 5, c6r5), (.int 4, c6r4)], []⟩, c6r4)
    ∧ assocFind [(.int 5, c6r5), (.int 4, c6r4)] (.int 5) = some c6r5
    ∧ (∀ (incoming : List Nat) (st st' : ConnState) (k : PyVal),
        (assocFind st.replies k).isSome = true →
        process_replies incoming st = .ok st' →
        (assocFind st'.replies k).isSome = true) :=
  ⟨rfl, rfl, rfl, rfl, process_replies_retains⟩

/-- Witness for C6's retention conjunct: pumping id 4's bytes retains the
stored reply for id 5. -/
theorem c6_witness :
    (assocFind (⟨0, [], [(.int 5, c6r5)], []⟩ : ConnState).replies
        (.int 5)).isSome = true
    ∧ (assocFind (⟨0, [], [(.int 5, c6r5), (.int 4, c6r4)], []⟩ :
        ConnState).replies (.int 5)).isSome = true :=
  ⟨rfl, c6_out_of_order.2.2.2.2 (encode c6json4)
    ⟨0, [], [(.int 5, c6r5)], []⟩
    ⟨0, [], [(.int 5, c6r5), (.int 4, c6r4)], []⟩ (.int 5) rfl rfl⟩

/-- Witness for the amended C8 at the incomplete buffer `b"5:ab"`. -/
theorem c8_witness :
    get_one_reply ⟨0, [53, 58, 97, 98], [], []⟩
        = (⟨0, [53, 58, 97, 98], [], []⟩, Option.none)
    ∧ process_replies [] ⟨0, [53, 58, 97, 98], [], []⟩
        = .ok ⟨0, [53, 58, 97, 98], [], []⟩
    ∧ wait_for_reply_to [] ⟨0, [53, 58, 97, 98], [], []⟩ 4
        = .error Halt.blocked :=
  ⟨(c8_amended ⟨0, [53, 58, 97, 98], [], []⟩ .indexError rfl).1,
   (c8_amended ⟨0, [53, 58, 97, 98], [], []⟩ .indexError rfl).2.1,
   (c8_amended ⟨0, [53, 58, 97, 98], [], []⟩ .indexError rfl).2.2.1 4 rfl⟩

end Argo
